import Mathlib

/-!
Verification development for the pallet-tracker repository.

The definitions in this file are shallow embeddings of the TypeScript
source under src/: pure functions become Lean functions, database and
file state becomes explicit state passing, fallible operations return
Except or Option, and external I/O outcomes (Graph API calls, file
reads, channel sends) are supplied as explicit oracle parameters.
Timestamps are modelled as natural numbers (minutes); fields that the
modelled logic never reads (createdAt, updatedAt) are omitted.
-/

/-! ## Content-hash lock controller (src/unnamed/part_007, server-utils) -/

/-- A Node.js style error as seen by the file-operation helpers: only the
`code` property is inspected (it can be absent, as on plain Errors). -/
structure FileErr where
  code : Option String
  msg : String := ""
deriving Repr, DecidableEq

/-- `isFileLockError` from server-utils: an error is a lock error when its
code is EBUSY, EPERM or EACCES. -/
def isFileLockError (e : FileErr) : Bool :=
  e.code = some "EBUSY" || e.code = some "EPERM" || e.code = some "EACCES"

/-- Result of a run of `retryFileOperation`: the final outcome, the number
of times the operation was invoked, and the list of backoff delays slept
(in ms), in order. -/
structure RetryTrace (α : Type) where
  result : Except FileErr α
  calls : Nat
  delays : List Nat
deriving Repr

/-- Loop body of `retryFileOperation`: `remaining` is the number of retries
still allowed (`maxRetries - attempt`), `attempt` the current 0-based
attempt index.  The operation is modelled as a map from attempt index to
outcome.  On a lock-class failure with retries remaining the loop sleeps
`delayMs * 2 ^ attempt` and retries; any other failure, or a lock failure
with no retries left, is re-raised immediately. -/
def retryGo (op : Nat → Except FileErr α) (delayMs : Nat) :
    Nat → Nat → RetryTrace α
  | remaining, attempt =>
    match op attempt with
    | .ok v => ⟨.ok v, 1, []⟩
    | .error e =>
      if isFileLockError e then
        match remaining with
        | 0 => ⟨.error e, 1, []⟩
        | r + 1 =>
          let t := retryGo op delayMs r (attempt + 1)
          ⟨t.result, t.calls + 1, delayMs * 2 ^ attempt :: t.delays⟩
      else ⟨.error e, 1, []⟩

/-- `retryFileOperation(operation, maxRetries = 5, delayMs = 200)` from
server-utils: runs the loop starting at attempt 0. -/
def retryFileOperation (op : Nat → Except FileErr α) (maxRetries : Nat := 5)
    (delayMs : Nat := 200) : RetryTrace α :=
  retryGo op delayMs maxRetries 0

/-- Auxiliary characterisation of `retryGo`, proved once and instantiated
at `attempt = 0` for the three conjuncts of the claim-level theorem. -/
theorem retryGo_ok (op : Nat → Except FileErr α) (d rem a : Nat) (v : α)
    (h : op a = .ok v) :
    retryGo op d rem a = ⟨.ok v, 1, []⟩ := by
  cases rem <;> simp [retryGo, h]

theorem retryGo_nonlock (op : Nat → Except FileErr α) (d rem a : Nat)
    (e : FileErr) (h : op a = .error e) (hl : isFileLockError e = false) :
    retryGo op d rem a = ⟨.error e, 1, []⟩ := by
  cases rem <;> simp [retryGo, h, hl]

theorem retryGo_lock_step (op : Nat → Except FileErr α) (d r a : Nat)
    (e : FileErr) (h : op a = .error e) (hl : isFileLockError e = true) :
    retryGo op d (r + 1) a =
      ⟨(retryGo op d r (a + 1)).result, (retryGo op d r (a + 1)).calls + 1,
        d * 2 ^ a :: (retryGo op d r (a + 1)).delays⟩ := by
  rw [retryGo, h]
  simp [hl]

theorem retryGo_lock_exhaust (op : Nat → Except FileErr α) (d a : Nat)
    (e : FileErr) (h : op a = .error e) (hl : isFileLockError e = true) :
    retryGo op d 0 a = ⟨.error e, 1, []⟩ := by
  simp [retryGo, h, hl]

/-- Spine lemma: if the first `k` attempts starting at `a` all fail with
lock-class errors and at least `k` retries remain, the loop sleeps the
exponential backoff for each of them and continues at attempt `a + k`. -/
theorem retryGo_lock_chain (op : Nat → Except FileErr α) (d : Nat) :
    ∀ (k rem a : Nat), k ≤ rem →
    (∀ i < k, ∃ e, op (a + i) = .error e ∧ isFileLockError e = true) →
    retryGo op d rem a =
      ⟨(retryGo op d (rem - k) (a + k)).result,
        (retryGo op d (rem - k) (a + k)).calls + k,
        (List.range k).map (fun i => d * 2 ^ (a + i)) ++
          (retryGo op d (rem - k) (a + k)).delays⟩ := by
  intro k
  induction k with
  | zero => intro rem a _ _; simp
  | succ n ih =>
    intro rem a hle hpre
    obtain ⟨e, he, hl⟩ := hpre 0 (Nat.succ_pos n)
    obtain ⟨r, rfl⟩ : ∃ r, rem = r + 1 :=
      ⟨rem - 1, by omega⟩
    rw [retryGo_lock_step op d r a e (by simpa using he) hl]
    have hpre' : ∀ i < n, ∃ e, op (a + 1 + i) = .error e ∧
        isFileLockError e = true := by
      intro i hi
      have := hpre (i + 1) (by omega)
      simpa [Nat.add_assoc, Nat.add_comm 1 i] using this
    rw [ih r (a + 1) (by omega) hpre']
    have harith : a + 1 + n = a + (n + 1) := by omega
    have hrem : r - n = r + 1 - (n + 1) := by omega
    simp only [RetryTrace.mk.injEq]
    refine ⟨?_, ?_, ?_⟩
    · rw [harith, hrem]
    · rw [harith, hrem]; omega
    · rw [harith, hrem]
      rw [List.range_succ_eq_map, List.map_cons, List.map_map]
      simp only [List.cons_append]
      congr 1
      congr 1
      apply List.map_congr_left
      intro i _
      simp only [Function.comp]
      have hia : a + 1 + i = a + (i + 1) := by omega
      rw [hia]

/-- C6: `retryFileOperation` invokes the operation; only a lock-class
failure (EBUSY, EPERM, EACCES) triggers a retry, after a backoff delay of
`delayMs * 2 ^ attempt`, up to `maxRetries` retries, after which the last
error is re-raised; a non-lock failure propagates immediately with no
further invocation of the operation, and a success stops the loop.  The
three conjuncts cover: a non-lock failure after `k` lock failures, lock
failures at every attempt, and a success after `k` lock failures. -/
theorem c6_retry_only_on_lock (op : Nat → Except FileErr α) (maxR d : Nat) :
    (∀ k e, k ≤ maxR → op k = .error e → isFileLockError e = false →
      (∀ i < k, ∃ ei, op i = .error ei ∧ isFileLockError ei = true) →
      retryFileOperation op maxR d =
        ⟨.error e, k + 1, (List.range k).map (fun i => d * 2 ^ i)⟩) ∧
    (∀ elast, (∀ i < maxR, ∃ ei, op i = .error ei ∧
        isFileLockError ei = true) →
      op maxR = .error elast → isFileLockError elast = true →
      retryFileOperation op maxR d =
        ⟨.error elast, maxR + 1, (List.range maxR).map (fun i => d * 2 ^ i)⟩) ∧
    (∀ k v, k ≤ maxR → op k = .ok v →
      (∀ i < k, ∃ ei, op i = .error ei ∧ isFileLockError ei = true) →
      retryFileOperation op maxR d =
        ⟨.ok v, k + 1, (List.range k).map (fun i => d * 2 ^ i)⟩) := by
  refine ⟨?_, ?_, ?_⟩
  · intro k e hk he hnl hpre
    unfold retryFileOperation
    rw [retryGo_lock_chain op d k maxR 0 hk (by simpa using hpre)]
    simp only [Nat.zero_add]
    rw [retryGo_nonlock op d (maxR - k) k e he hnl]
    simp [Nat.add_comm]
  · intro elast hpre he hl
    unfold retryFileOperation
    rw [retryGo_lock_chain op d maxR maxR 0 le_rfl (by simpa using hpre)]
    simp only [Nat.zero_add, Nat.sub_self]
    rw [retryGo_lock_exhaust op d maxR elast he hl]
    simp [Nat.add_comm]
  · intro k v hk hv hpre
    unfold retryFileOperation
    rw [retryGo_lock_chain op d k maxR 0 hk (by simpa using hpre)]
    simp only [Nat.zero_add]
    rw [retryGo_ok op d (maxR - k) k v hv]
    simp [Nat.add_comm]

/-- Concrete operation trace for the C6 witness: two lock failures, then a
non-lock failure. -/
def c6op : Nat → Except FileErr Nat := fun i =>
  if i < 2 then .error ⟨some "EBUSY", "locked"⟩
  else .error ⟨none, "boom"⟩

/-- Witness for C6 at a concrete operation: after two EBUSY failures, a
plain error at attempt 2 propagates at once, with exactly three
invocations and backoff delays 200 ms and 400 ms. -/
theorem c6_retry_only_on_lock_witness :
    retryFileOperation c6op 5 200 =
      ⟨.error ⟨none, "boom"⟩, 3, [200, 400]⟩ := by
  have h := (c6_retry_only_on_lock c6op 5 200).1 2 ⟨none, "boom"⟩
    (by omega) rfl rfl
    (by
      intro i hi
      exact ⟨⟨some "EBUSY", "locked"⟩, by
        interval_cases i <;> exact ⟨rfl, rfl⟩⟩)
  simpa using h

/-! ## Delivery queue (src/unnamed/part_009, notifications service) -/

/-- Status enum of the `notification_queue` table. -/
inductive QStatus where
  | pending
  | sent
  | failed
deriving Repr, DecidableEq

/-- One row of `notification_queue`.  Timestamps are minutes as naturals;
`todoId` references a todo primary key (modelled as Nat). -/
structure QueueItem where
  type : String
  recipient : String
  subject : String
  message : String
  todoId : Option Nat
  status : QStatus
  retryCount : Nat
  maxRetries : Nat
  nextRetryAt : Nat
  sentAt : Option Nat
  failureReason : Option String
deriving Repr, DecidableEq

/-- The channel types the drain loop knows how to dispatch; any other type
is skipped without touching the row. -/
def knownChannel (t : String) : Bool :=
  t = "sms" || t = "email" || t = "in_app"

/-- One drain pass of `processNotificationQueue` restricted to a single
item, with the channel send outcome supplied as `sendOk`.  Returns the
updated row and whether a dispatch (channel send) was attempted.
Mirrors the source: the row is selected when `status = pending` and
`nextRetryAt < now`; a selected row at the retry limit is marked failed
without dispatching; otherwise the item is dispatched, and on failure
`retryCount` is incremented and the next retry is scheduled
`5 * 2 ^ retryCount` minutes after `now`. -/
def drainStep (now : Nat) (sendOk : Bool) (q : QueueItem) : QueueItem × Bool :=
  if q.status = .pending ∧ q.nextRetryAt < now then
    if q.retryCount ≥ q.maxRetries then
      ({ q with status := .failed, failureReason := some "Max retries exceeded" }, false)
    else if knownChannel q.type then
      if sendOk then
        ({ q with status := .sent, sentAt := some now }, true)
      else
        ({ q with retryCount := q.retryCount + 1,
                  nextRetryAt := now + 5 * 2 ^ q.retryCount,
                  failureReason := some "Send failed, will retry" }, true)
    else (q, false)
  else (q, false)

/-- State of a queue item after `n` drain passes whose channel send always
fails, pass `i` running at time `times i`. -/
def drainFailN (times : Nat → Nat) : Nat → QueueItem → QueueItem
  | 0, q => q
  | n + 1, q => (drainStep (times n) false (drainFailN times n q)).1

/-- Invariant of a permanently failing queue item across drain passes:
while `k ≤ maxRetries` the item is still pending with `retryCount = k`
(and, for `k ≥ 1`, its next retry is scheduled `5 * 2 ^ (k-1)` minutes
after pass `k-1`); once `k > maxRetries` it is failed with
`retryCount = maxRetries`. -/
theorem drainFail_invariant (times : Nat → Nat) (q0 : QueueItem) (M : Nat)
    (hstat : q0.status = .pending) (hrc : q0.retryCount = 0)
    (hmax : q0.maxRetries = M) (htype : q0.type = "sms") :
    ∀ k, (∀ i < k, (drainFailN times i q0).nextRetryAt < times i) →
      (drainFailN times k q0).maxRetries = M ∧
      (drainFailN times k q0).type = "sms" ∧
      (k ≤ M → (drainFailN times k q0).status = .pending ∧
        (drainFailN times k q0).retryCount = k) ∧
      (M < k → (drainFailN times k q0).status = .failed ∧
        (drainFailN times k q0).retryCount = M) ∧
      (1 ≤ k → k ≤ M →
        (drainFailN times k q0).nextRetryAt = times (k - 1) + 5 * 2 ^ (k - 1)) := by
  intro k
  induction k with
  | zero =>
    intro _
    exact ⟨hmax, htype, fun _ => ⟨hstat, hrc⟩,
      fun h => absurd h (by omega), fun h => absurd h (by omega)⟩
  | succ n ih =>
    intro helig
    obtain ⟨ihmax, ihtype, ihpend, ihfail, ihnext⟩ :=
      ih (fun i hi => helig i (by omega))
    have hel : (drainFailN times n q0).nextRetryAt < times n :=
      helig n (by omega)
    by_cases hnM : n < M
    · -- still below the limit: a dispatch happens and fails
      obtain ⟨hp, hc⟩ := ihpend (by omega)
      have hstep : drainFailN times (n + 1) q0 =
          { drainFailN times n q0 with
              retryCount := (drainFailN times n q0).retryCount + 1,
              nextRetryAt := times n + 5 * 2 ^ (drainFailN times n q0).retryCount,
              failureReason := some "Send failed, will retry" } := by
        show (drainStep (times n) false (drainFailN times n q0)).1 = _
        rw [drainStep]
        rw [if_pos ⟨hp, hel⟩]
        rw [if_neg (by omega)]
        rw [if_pos (by simp [knownChannel, ihtype])]
        simp
      rw [hstep]
      refine ⟨ihmax, ihtype, fun _ => ⟨hp, by simp [hc]⟩,
        fun h => absurd h (by omega), ?_⟩
      intro _ _
      simp [hc]
    · by_cases hnEq : n = M
      · -- the pass in which the exhausted item is marked failed
        obtain ⟨hp, hc⟩ := ihpend (by omega)
        have hstep : drainFailN times (n + 1) q0 =
            { drainFailN times n q0 with
                status := .failed,
                failureReason := some "Max retries exceeded" } := by
          show (drainStep (times n) false (drainFailN times n q0)).1 = _
          rw [drainStep]
          rw [if_pos ⟨hp, hel⟩]
          rw [if_pos (by omega)]
        rw [hstep]
        exact ⟨ihmax, ihtype, fun h => absurd h (by omega),
          fun _ => ⟨rfl, by simpa [hnEq] using hc⟩,
          fun _ h => absurd h (by omega)⟩
      · -- already failed: the pass does not select the item
        obtain ⟨hf, hc⟩ := ihfail (by omega)
        have hstep : drainFailN times (n + 1) q0 = drainFailN times n q0 := by
          show (drainStep (times n) false (drainFailN times n q0)).1 = _
          rw [drainStep]
          rw [if_neg (by simp [hf])]
        rw [hstep]
        exact ⟨ihmax, ihtype, fun h => absurd h (by omega),
          fun _ => ⟨hf, hc⟩, fun _ h => absurd h (by omega)⟩

/-- C3 (amended): for a fresh sms queue item subjected to `N` consecutive
drain passes whose send always fails (pass `i` at time `times i`, each
late enough to select the item), `retryCount` after `N` passes equals
`min N maxRetries` and never exceeds `maxRetries`; the status becomes
`failed` exactly on the first pass after `retryCount` has reached
`maxRetries` (that is, once `N ≥ maxRetries + 1`), a pass dispatches the
item exactly while `retryCount < maxRetries`, and `nextRetryAt` strictly
increases on every failed attempt that dispatched. -/
theorem c3_queue_retry_bound (times : Nat → Nat) (q0 : QueueItem) (M N : Nat)
    (hstat : q0.status = .pending) (hrc : q0.retryCount = 0)
    (hmax : q0.maxRetries = M) (htype : q0.type = "sms")
    (helig : ∀ i < N, (drainFailN times i q0).nextRetryAt < times i) :
    (drainFailN times N q0).retryCount = min N M ∧
    ((drainFailN times N q0).status = .failed ↔ M + 1 ≤ N) ∧
    (∀ k < N, ((drainStep (times k) false (drainFailN times k q0)).2 = true ↔ k < M)) ∧
    (∀ k, k + 1 ≤ N → k < M →
      (drainFailN times k q0).nextRetryAt < (drainFailN times (k + 1) q0).nextRetryAt) := by
  obtain ⟨hN1, hN2, hN3, hN4, hN5⟩ :=
    drainFail_invariant times q0 M hstat hrc hmax htype N helig
  refine ⟨?_, ?_, ?_, ?_⟩
  · by_cases h : N ≤ M
    · rw [(hN3 h).2]; omega
    · rw [(hN4 (by omega)).2]; omega
  · by_cases h : N ≤ M
    · rw [(hN3 h).1]
      constructor
      · intro hc; cases hc
      · intro hc; omega
    · rw [(hN4 (by omega)).1]
      constructor
      · intro _; omega
      · intro _; rfl
  · intro k hk
    obtain ⟨hk1, hk2, hk3, hk4, hk5⟩ :=
      drainFail_invariant times q0 M hstat hrc hmax htype k
        (fun i hi => helig i (by omega))
    have hel : (drainFailN times k q0).nextRetryAt < times k := helig k hk
    by_cases hkM : k < M
    · obtain ⟨hp, hc⟩ := hk3 (by omega)
      rw [drainStep]
      rw [if_pos ⟨hp, hel⟩]
      rw [if_neg (by omega)]
      rw [if_pos (by simp [knownChannel, hk2])]
      simp [hkM]
    · by_cases hkEq : k = M
      · obtain ⟨hp, hc⟩ := hk3 (by omega)
        rw [drainStep]
        rw [if_pos ⟨hp, hel⟩]
        rw [if_pos (by omega)]
        simp [hkM]
      · obtain ⟨hf, _⟩ := hk4 (by omega)
        rw [drainStep]
        rw [if_neg (by simp [hf])]
        simp [hkM]
  · intro k hkN hkM
    obtain ⟨gk1, gk2, gk3, gk4, gk5⟩ :=
      drainFail_invariant times q0 M hstat hrc hmax htype (k + 1)
        (fun i hi => helig i (by omega))
    have hnext : (drainFailN times (k + 1) q0).nextRetryAt =
        times k + 5 * 2 ^ k := by
      simpa using gk5 (by omega) (by omega)
    have hel : (drainFailN times k q0).nextRetryAt < times k :=
      helig k (by omega)
    have hpos : 0 < 5 * 2 ^ k := by positivity
    omega

/-- Concrete fresh sms queue item for C3, with the default `maxRetries = 3`
of the schema. -/
def c3q : QueueItem :=
  { type := "sms", recipient := "+15550100", subject := "", message := "m",
    todoId := none, status := .pending, retryCount := 0, maxRetries := 3,
    nextRetryAt := 0, sentAt := none, failureReason := none }

/-- Concrete pass times for C3, far enough apart that every pass selects
the item. -/
def c3times : Nat → Nat := fun i => 1000 * (i + 1)

/-- Counterexample to C3 as stated: with `maxRetries = 3`, after exactly
3 failing drain passes `retryCount` has reached `maxRetries`, yet the
item is still `pending` — the transition to `failed` only happens on the
next pass, so the status does not change "exactly when retryCount reaches
maxRetries". -/
theorem c3_counterexample :
    (drainFailN c3times 3 c3q).retryCount = c3q.maxRetries ∧
    (drainFailN c3times 3 c3q).status ≠ QStatus.failed ∧
    (drainFailN c3times 4 c3q).status = QStatus.failed := by
  decide

/-- Witness for C3 at the concrete item: five failing passes against
`maxRetries = 3` leave `retryCount = min 5 3` and a `failed` status. -/
theorem c3_queue_retry_bound_witness :
    (drainFailN c3times 5 c3q).retryCount = min 5 3 ∧
    ((drainFailN c3times 5 c3q).status = .failed ↔ 3 + 1 ≤ 5) := by
  have h := c3_queue_retry_bound c3times c3q 3 5 rfl rfl rfl rfl (by decide)
  exact ⟨h.1, h.2.1⟩

/-! ## Direct Excel-file mutation with content-hash optimistic locking
(src/lib/env.ts second half, together with server-utils).  The file is
modelled as a workbook: an optional worksheet (the PalletTracker sheet)
holding its rows, each row a list of cell texts; row 1 is the header.
`computeFileHash` reads the file bytes, so it is modelled as an abstract
function from the file content to a digest string, passed in as a
parameter. -/

/-- JS `String.prototype.trim`, implemented over the character list so
that it reduces inside the kernel. -/
def jsTrim (s : String) : String :=
  ⟨((s.data.dropWhile Char.isWhitespace).reverse.dropWhile
      Char.isWhitespace).reverse⟩

/-- JS `String.prototype.toUpperCase` (ASCII, which is all the source
compares against). -/
def jsToUpper (s : String) : String :=
  ⟨s.data.map Char.toUpper⟩

/-- Character-level worker for splitting on the two-character separator
`::` used by the pallet-id format. -/
def splitDCAux : List Char → List Char → List (List Char)
  | [], acc => [acc.reverse]
  | [c], acc => [(c :: acc).reverse]
  | c1 :: c2 :: rest, acc =>
    if c1 = ':' ∧ c2 = ':' then acc.reverse :: splitDCAux rest []
    else splitDCAux (c2 :: rest) (c1 :: acc)

/-- JS `palletId.split("::")`. -/
def jsSplitDoubleColon (s : String) : List String :=
  (splitDCAux s.data []).map (fun cs => ⟨cs⟩)

/-- `row.getCell(n).text` for a 1-based column `n`: an absent cell reads as
the empty string. -/
def cellText (r : List String) (n : Nat) : String :=
  r.getD (n - 1) ""

/-- Writing `row.getCell(n).value`: pads the row up to column `n` and sets
the cell (writing `null` yields the empty text). -/
def setCellText (r : List String) (n : Nat) (v : String) : List String :=
  (r ++ List.replicate (n - r.length) "").set (n - 1) v

/-- The Excel file content: `sheet` is the PalletTracker worksheet when
present. -/
structure Workbook where
  sheet : Option (List (List String))
deriving Repr, DecidableEq

/-- Errors surfaced by the direct-mutation path. -/
inductive WriteErr where
  | conflict
  | sheetMissing
  | notFound
deriving Repr, DecidableEq

/-- Whether a data row matches the parsed pallet id components (trimmed
columns A, B, C against the `::`-separated parts; a missing part, like a
JS `undefined` from destructuring, matches nothing). -/
def rowMatchesId (parts : List String) (r : List String) : Bool :=
  parts.get? 0 == some (jsTrim (cellText r 1)) &&
  parts.get? 1 == some (jsTrim (cellText r 2)) &&
  parts.get? 2 == some (jsTrim (cellText r 3))

/-- `updatePalletMadeStatus(palletId, made, expectedVersion)` from env.ts:
first recomputes the content hash and fails with a conflict if it differs
from the expected version; then looks up the worksheet, updates column F
of every row matching the pallet id, and only if a row was found writes
the workbook back.  The returned workbook is the file content after the
call (unchanged on every error path). -/
def updatePalletMadeStatus (hash : Workbook → String) (fs : Workbook)
    (palletId : String) (made : Bool) (expectedVersion : String) :
    Workbook × Except WriteErr Unit :=
  if hash fs ≠ expectedVersion then (fs, .error .conflict)
  else
    let parts := jsSplitDoubleColon palletId
    match fs.sheet with
    | none => (fs, .error .sheetMissing)
    | some rows =>
      let newRows := rows.mapIdx (fun i r =>
        if i = 0 then r
        else if rowMatchesId parts r then
          setCellText r 6 (if made then "X" else "")
        else r)
      let found := rows.enum.any (fun p => p.1 != 0 && rowMatchesId parts p.2)
      if found then (⟨some newRows⟩, .ok ()) else (fs, .error .notFound)

/-- The pallet id of a data row, as built by `bulkUpdatePalletStatus`. -/
def rowPalletId (r : List String) : String :=
  jsTrim (cellText r 1) ++ "::" ++ jsTrim (cellText r 2) ++ "::" ++
    jsTrim (cellText r 3)

/-- `bulkUpdatePalletStatus(palletIds, made, expectedVersion)` from env.ts:
same conflict check, then updates column F of every row whose id is in the
request, collects the distinct ids actually found, and only writes the
workbook back when their number equals the number of requested ids. -/
def bulkUpdatePalletStatus (hash : Workbook → String) (fs : Workbook)
    (palletIds : List String) (made : Bool) (expectedVersion : String) :
    Workbook × Except WriteErr Unit :=
  if hash fs ≠ expectedVersion then (fs, .error .conflict)
  else
    match fs.sheet with
    | none => (fs, .error .sheetMissing)
    | some rows =>
      let newRows := rows.mapIdx (fun i r =>
        if i = 0 then r
        else if palletIds.contains (rowPalletId r) then
          setCellText r 6 (if made then "X" else "")
        else r)
      let foundIds :=
        ((rows.enum.filter (fun p => p.1 != 0 &&
            palletIds.contains (rowPalletId p.2))).map
          (fun p => rowPalletId p.2)).dedup
      if foundIds.length ≠ palletIds.length then (fs, .error .notFound)
      else (⟨some newRows⟩, .ok ())

/-- C2: when the current content fingerprint of the file differs from the
expected version, both `updatePalletMadeStatus` and
`bulkUpdatePalletStatus` fail with a conflict error and leave the file
content unchanged — no part of the mutation is applied. -/
theorem c2_conflict_blocks_mutation (hash : Workbook → String) (fs : Workbook)
    (palletId : String) (palletIds : List String) (made : Bool)
    (expectedVersion : String) (h : hash fs ≠ expectedVersion) :
    updatePalletMadeStatus hash fs palletId made expectedVersion =
      (fs, .error .conflict) ∧
    bulkUpdatePalletStatus hash fs palletIds made expectedVersion =
      (fs, .error .conflict) := by
  constructor
  · rw [updatePalletMadeStatus, if_pos h]
  · rw [bulkUpdatePalletStatus, if_pos h]

/-- Concrete file content used by the C2 and C10 witnesses. -/
def c2fs : Workbook :=
  ⟨some [["Job", "Release", "Pallet", "Size", "Elev", "Made"],
         ["100", "A", "1", "4x4", "E1", ""]]⟩

/-- Witness for C2: a caller holding hash `H1` after the file content
hashes to `H2` gets a conflict from both entry points, and the file is
untouched. -/
theorem c2_conflict_blocks_mutation_witness :
    updatePalletMadeStatus (fun _ => "H2") c2fs "100::A::1" true "H1" =
      (c2fs, .error .conflict) ∧
    bulkUpdatePalletStatus (fun _ => "H2") c2fs ["100::A::1"] true "H1" =
      (c2fs, .error .conflict) :=
  c2_conflict_blocks_mutation (fun _ => "H2") c2fs "100::A::1" ["100::A::1"]
    true "H1" (by decide)

/-- C10: when the requested pallet id is absent from the worksheet (or,
for the bulk operation, any one requested id is), the update functions
fail with the not-found error before the workbook is written back, so the
file content is unchanged — in particular no partial bulk update is
persisted. -/
theorem c10_not_found_no_write (hash : Workbook → String) (fs : Workbook)
    (rows : List (List String)) (palletId : String) (ids : List String)
    (made : Bool) (expectedVersion : String)
    (hh : hash fs = expectedVersion) (hs : fs.sheet = some rows) :
    (rows.enum.any (fun p => p.1 != 0 &&
        rowMatchesId (jsSplitDoubleColon palletId) p.2) = false →
      updatePalletMadeStatus hash fs palletId made expectedVersion =
        (fs, .error .notFound)) ∧
    (∀ pid ∈ ids, (∀ p ∈ rows.enum, p.1 ≠ 0 → rowPalletId p.2 ≠ pid) →
      bulkUpdatePalletStatus hash fs ids made expectedVersion =
        (fs, .error .notFound)) := by
  constructor
  · intro hfound
    simp only [updatePalletMadeStatus, hh, ne_eq, not_true_eq_false,
      if_false, hs]
    simp [hfound]
  · intro pid hpid hnone
    simp only [bulkUpdatePalletStatus, hh, ne_eq, not_true_eq_false,
      if_false, hs]
    set foundIds :=
      ((rows.enum.filter (fun p => p.1 != 0 &&
          ids.contains (rowPalletId p.2))).map
        (fun p => rowPalletId p.2)).dedup with hfdef
    have hpidnot : pid ∉ foundIds := by
      intro hmem
      rw [hfdef, List.mem_dedup, List.mem_map] at hmem
      obtain ⟨p, hp, hpe⟩ := hmem
      rw [List.mem_filter] at hp
      obtain ⟨hpmem, hpc⟩ := hp
      have h0 : p.1 ≠ 0 := by
        intro h
        simp [h] at hpc
      exact hnone p hpmem h0 hpe
    have hsub : ∀ x ∈ foundIds, x ∈ ids := by
      intro x hx
      rw [hfdef, List.mem_dedup, List.mem_map] at hx
      obtain ⟨p, hp, hpe⟩ := hx
      rw [List.mem_filter] at hp
      have := hp.2
      rw [Bool.and_eq_true] at this
      have hc := this.2
      have hc2 : rowPalletId p.2 ∈ ids := by simpa using hc
      exact hpe ▸ hc2
    have hlen : foundIds.length < ids.length := by
      have hnd : foundIds.Nodup := List.nodup_dedup _
      have h1 : foundIds.toFinset.card = foundIds.length :=
        List.toFinset_card_of_nodup hnd
      have h2 : foundIds.toFinset ⊆ ids.toFinset.erase pid := by
        intro x hx
        rw [List.mem_toFinset] at hx
        rw [Finset.mem_erase, List.mem_toFinset]
        exact ⟨fun he => hpidnot (he ▸ hx), hsub x hx⟩
      have h3 : (ids.toFinset.erase pid).card < ids.toFinset.card :=
        Finset.card_erase_lt_of_mem (List.mem_toFinset.mpr hpid)
      have h4 : ids.toFinset.card ≤ ids.length := ids.toFinset_card_le
      have h5 := Finset.card_le_card h2
      omega
    simp [hlen.ne]

/-- Witness for C10: against the concrete two-row workbook, a single
update for an id absent from the sheet, and a bulk update in which one of
the two requested ids is absent, both fail with the not-found error and
leave the file unchanged. -/
theorem c10_not_found_no_write_witness :
    updatePalletMadeStatus (fun _ => "H1") c2fs "999::Z::9" true "H1" =
      (c2fs, .error .notFound) ∧
    bulkUpdatePalletStatus (fun _ => "H1") c2fs ["100::A::1", "999::Z::9"]
      true "H1" = (c2fs, .error .notFound) := by
  have h := c10_not_found_no_write (fun _ => "H1") c2fs
    [["Job", "Release", "Pallet", "Size", "Elev", "Made"],
     ["100", "A", "1", "4x4", "E1", ""]]
    "999::Z::9" ["100::A::1", "999::Z::9"] true "H1" rfl rfl
  exact ⟨h.1 (by decide), h.2 "999::Z::9" (by decide) (by decide)⟩

/-! ## Excel reader with temp-copy fallback (src/lib/excel/reader.ts, first
version in the file, together with `createTempCopy` / `cleanupTempFile`
from server-utils).  I/O outcomes are supplied through an environment
record; the boolean tracked alongside the result is whether the private
temporary copy of the file still exists when the call returns or throws. -/

/-- One parsed pallet row of the direct-read path. -/
structure PalletTask where
  id : String
  jobNumber : String
  releaseNumber : String
  palletNumber : String
  size : String
  elevation : String
  made : Bool
  accList : String
  shippedDate : String
  notes : String
  status : String
deriving Repr, DecidableEq

/-- The data returned by `readPalletData`. -/
structure PalletData where
  pallets : List PalletTask
  mtime : Nat
  version : String
  readOnly : Bool
deriving Repr, DecidableEq

/-- Parse the worksheet rows exactly as `readPalletData` does: skip the
header row, skip rows missing any of the three key columns, read columns
1-9 trimmed, and derive `made` and `status` from column F. -/
def parsePalletRows (rows : List (List String)) : List PalletTask :=
  (rows.enum.filterMap (fun p =>
    if p.1 = 0 then none
    else
      let jobNumber := jsTrim (cellText p.2 1)
      let releaseNumber := jsTrim (cellText p.2 2)
      let palletNumber := jsTrim (cellText p.2 3)
      if jobNumber = "" ∨ releaseNumber = "" ∨ palletNumber = "" then none
      else
        let made := jsToUpper (jsTrim (cellText p.2 6)) = "X"
        some
          { id := jobNumber ++ "::" ++ releaseNumber ++ "::" ++ palletNumber,
            jobNumber, releaseNumber, palletNumber,
            size := jsTrim (cellText p.2 4),
            elevation := jsTrim (cellText p.2 5),
            made,
            accList := jsTrim (cellText p.2 7),
            shippedDate := jsTrim (cellText p.2 8),
            notes := jsTrim (cellText p.2 9),
            status := if made then "completed" else "pending" }))

/-- Outcomes of the I/O the reader performs, supplied by the environment:
the stat call, the (already retried) direct read, the copy to the temp
location, the read of the temp copy, and the content-hash computation. -/
structure ReaderEnv where
  statResult : Except FileErr Nat
  directRead : Except FileErr Workbook
  copyResult : Except FileErr Unit
  tempRead : Except FileErr Workbook
  hashResult : Except FileErr String
deriving Repr

/-- Errors surfaced by the reader. -/
inductive ReadErr where
  | io (e : FileErr)
  | cannotRead
  | sheetMissing
deriving Repr, DecidableEq

/-- `loadWorkbookWithFallback`: try the direct (retried) read; on a
lock-class failure, copy the file to a temp location and read the copy in
read-only mode.  Returns the load outcome — workbook, read-only flag and
whether a temp path is handed to the caller — paired with whether a temp
copy exists on disk when the function finishes.  Mirrors the source: when
reading the temp copy fails, the function throws without deleting the
copy it just created. -/
def loadWorkbookWithFallback (env : ReaderEnv) :
    Except ReadErr (Workbook × Bool × Option Unit) × Bool :=
  match env.directRead with
  | .ok wb => (.ok (wb, false, none), false)
  | .error e =>
    if isFileLockError e then
      match env.copyResult with
      | .error _ => (.error .cannotRead, false)
      | .ok _ =>
        match env.tempRead with
        | .ok wb => (.ok (wb, true, some ()), true)
        | .error _ => (.error .cannotRead, true)
    else (.error (.io e), false)

/-- `readPalletData` (fallback version): stat, load with fallback, locate
the worksheet, parse the rows, compute the content hash (from the temp
copy when in read-only mode), and clean the temp copy up both on success
and in the catch block — but only when the loader returned the temp path.
The boolean is whether a temp copy still exists when the call finishes. -/
def readPalletData (env : ReaderEnv) : Except ReadErr PalletData × Bool :=
  match env.statResult with
  | .error e => (.error (.io e), false)
  | .ok mtime =>
    match loadWorkbookWithFallback env with
    | (.error e, tempEx) => (.error e, tempEx)
    | (.ok (wb, readOnly, tempPath), _) =>
      match wb.sheet with
      | none => (.error .sheetMissing, false)
      | some rows =>
        match env.hashResult with
        | .error e => (.error (.io e), false)
        | .ok h =>
          (.ok { pallets := parsePalletRows rows, mtime, version := h,
                 readOnly }, false)

/-- The one scenario in which the temp copy leaks: the direct read fails
with a lock-class error, the copy succeeds, and reading the copy fails. -/
def tempLeakScenario (env : ReaderEnv) : Prop :=
  ∃ e, env.directRead = .error e ∧ isFileLockError e = true ∧
    (∃ u, env.copyResult = .ok u) ∧ (∃ e2, env.tempRead = .error e2)

/-- C9 (amended): whenever the fallback path is not in the one leaking
scenario — reading the just-created temp copy fails — `readPalletData`
finishes (returns or throws) with no temporary copy left behind. -/
theorem c9_temp_cleanup (env : ReaderEnv) (h : ¬ tempLeakScenario env) :
    (readPalletData env).2 = false := by
  obtain ⟨stat, dir, copy, temp, hashr⟩ := env
  unfold readPalletData loadWorkbookWithFallback
  cases stat with
  | error e => rfl
  | ok mtime =>
    cases dir with
    | ok wb =>
      obtain ⟨sheet⟩ := wb
      cases sheet <;> cases hashr <;> rfl
    | error e =>
      by_cases hl : isFileLockError e
      · cases copy with
        | error e1 => simp [hl]
        | ok u =>
          cases temp with
          | ok wb =>
            obtain ⟨sheet⟩ := wb
            cases sheet <;> cases hashr <;> simp [hl]
          | error e2 =>
            exact absurd ⟨e, rfl, hl, ⟨u, rfl⟩, ⟨e2, rfl⟩⟩ h
      · simp [hl]

/-- Counterexample to C9 as stated: direct read fails with EBUSY, the copy
succeeds, reading the copy fails — `readPalletData` throws while the
temporary copy is still on disk. -/
theorem c9_counterexample :
    readPalletData
      { statResult := .ok 1000,
        directRead := .error ⟨some "EBUSY", "busy"⟩,
        copyResult := .ok (),
        tempRead := .error ⟨some "EBUSY", "still busy"⟩,
        hashResult := .ok "H" } = (.error .cannotRead, true) := by
  rfl

/-- Witness for C9 at a concrete environment outside the leaking scenario:
a locked direct read whose temp-copy read succeeds cleans the copy up. -/
theorem c9_temp_cleanup_witness :
    (readPalletData
      { statResult := .ok 1000,
        directRead := .error ⟨some "EBUSY", "busy"⟩,
        copyResult := .ok (),
        tempRead := .ok ⟨some [["Job"], ["100", "A", "1"]]⟩,
        hashResult := .ok "H" }).2 = false := by
  apply c9_temp_cleanup
  rintro ⟨e, hdir, hl, hcopy, e2, htemp⟩
  exact absurd htemp (by simp)

/-! ## Webhook ingress and notification records (src/app/page.tsx webhook
POST handler; src/lib/db/schema.ts `webhook_notifications`;
src/lib/services/webhook-processor.ts error marking and the
reprocessing-selection query). -/

/-- One row of the `webhook_notifications` table.  `processingError` is a
nullable text column with no default, so a fresh record holds `none`. -/
structure NotificationRecord where
  subscriptionId : String
  changeType : String
  resource : String
  resourceData : Option String
  processed : Bool
  processedAt : Option Nat
  processingError : Option String
deriving Repr, DecidableEq

/-- An inbound notification as decoded from the POST JSON body: every
field may be absent. -/
structure RawNotification where
  clientState : Option String
  subscriptionId : Option String
  changeType : Option String
  resource : Option String
  resourceData : Option String
deriving Repr, DecidableEq

/-- Per-notification handling inside the POST loop: a notification whose
`clientState` does not equal the configured secret is dropped (early
return); otherwise the insert into `webhook_notifications` succeeds only
when the NOT NULL columns (`subscriptionId`, `changeType`, `resource`)
are present — a violation throws and is swallowed by the per-item catch,
dropping that notification without failing the batch.
`resourceData` is stored as `JSON.stringify(resourceData || {})`. -/
def persistNotification (secret : String) (n : RawNotification) :
    Option NotificationRecord :=
  if n.clientState ≠ some secret then none
  else
    match n.subscriptionId, n.changeType, n.resource with
    | some sid, some ct, some res =>
      some { subscriptionId := sid, changeType := ct, resource := res,
             resourceData := some (n.resourceData.getD "{}"),
             processed := false, processedAt := none,
             processingError := none }
    | _, _, _ => none

/-- The webhook POST handler: 400 when the body has no notification
array, 500 when the configured secret is missing, otherwise it persists
each notification through the per-item handler and answers 202.  The
asynchronous reconciliation kicked off per stored notification is
fire-and-forget in the source (not awaited before the 202), so the
response and the stored records do not depend on it. -/
def handleWebhookPost (secret : String) (body : Option (List RawNotification))
    (db : List NotificationRecord) : Nat × List NotificationRecord :=
  match body with
  | none => (400, db)
  | some notifs =>
    if secret = "" then (500, db)
    else
      (202, notifs.foldl (fun acc n =>
        match persistNotification secret n with
        | some r => acc ++ [r]
        | none => acc) db)

/-- A notification that the handler persists: matching secret and all NOT
NULL columns present. -/
def validNotification (secret : String) (n : RawNotification) : Bool :=
  n.clientState == some secret && n.subscriptionId.isSome &&
    n.changeType.isSome && n.resource.isSome

theorem persistNotification_isSome (secret : String) (n : RawNotification) :
    (persistNotification secret n).isSome = validNotification secret n := by
  obtain ⟨cs, sid, ct, res, rd⟩ := n
  rw [persistNotification, validNotification]
  by_cases h : cs = some secret
  · simp only [h, ne_eq, not_true_eq_false, if_false, beq_self_eq_true,
      Bool.true_and]
    cases sid <;> cases ct <;> cases res <;> simp
  · have hne : cs ≠ some secret := h
    simp only [if_pos hne, Option.isSome_none]
    have : (cs == some secret) = false := by
      simpa using h
    simp [this]

theorem handleWebhookPost_foldl (secret : String)
    (notifs : List RawNotification) (db : List NotificationRecord) :
    notifs.foldl (fun acc n =>
        match persistNotification secret n with
        | some r => acc ++ [r]
        | none => acc) db =
      db ++ notifs.filterMap (persistNotification secret) := by
  induction notifs generalizing db with
  | nil => simp
  | cons n rest ih =>
    cases hpn : persistNotification secret n with
    | none => simp [List.foldl_cons, hpn, ih, List.filterMap_cons]
    | some r => simp [List.foldl_cons, hpn, ih, List.filterMap_cons]

/-- C8 (amended): with a configured secret, the POST handler answers 202
without waiting on reconciliation, and appends to the store exactly the
records of those notifications whose shared secret matches and whose
required columns are present; every other notification — mismatched
secret or missing required field — is dropped silently, without failing
the rest of the batch. -/
theorem c8_webhook_post_filters (secret : String)
    (notifs : List RawNotification) (db : List NotificationRecord)
    (hsec : secret ≠ "") :
    (handleWebhookPost secret (some notifs) db).1 = 202 ∧
    (handleWebhookPost secret (some notifs) db).2 =
      db ++ notifs.filterMap (persistNotification secret) ∧
    (∀ n, (persistNotification secret n).isSome = validNotification secret n) := by
  rw [handleWebhookPost]
  rw [if_neg hsec]
  exact ⟨rfl, handleWebhookPost_foldl secret notifs db,
    fun n => persistNotification_isSome secret n⟩

/-- A matched-secret notification that lacks the required
`subscriptionId` column. -/
def c8incomplete : RawNotification :=
  { clientState := some "secret-1", subscriptionId := none,
    changeType := some "updated", resource := some "/drive/x",
    resourceData := none }

/-- Counterexample to C8 as stated: a notification whose shared secret
equals the configured value is nevertheless not persisted when its
`subscriptionId` is missing (the NOT NULL insert fails and is swallowed),
while the handler still answers 202. -/
theorem c8_counterexample :
    c8incomplete.clientState = some "secret-1" ∧
    handleWebhookPost "secret-1" (some [c8incomplete]) [] = (202, []) := by
  decide

/-- Witness for C8 at a concrete batch: one valid notification, one with a
wrong secret; only the former is stored and the response is 202. -/
theorem c8_webhook_post_filters_witness :
    (handleWebhookPost "secret-1"
      (some [{ clientState := some "secret-1",
               subscriptionId := some "sub-1",
               changeType := some "updated", resource := some "/drive/x",
               resourceData := none },
             { clientState := some "wrong", subscriptionId := some "sub-2",
               changeType := some "updated", resource := some "/drive/x",
               resourceData := none }]) []).1 = 202 ∧
    (handleWebhookPost "secret-1"
      (some [{ clientState := some "secret-1",
               subscriptionId := some "sub-1",
               changeType := some "updated", resource := some "/drive/x",
               resourceData := none },
             { clientState := some "wrong", subscriptionId := some "sub-2",
               changeType := some "updated", resource := some "/drive/x",
               resourceData := none }]) []).2 =
      [] ++ [{ clientState := some "secret-1", subscriptionId := some "sub-1",
               changeType := some "updated", resource := some "/drive/x",
               resourceData := none },
             { clientState := some "wrong", subscriptionId := some "sub-2",
               changeType := some "updated", resource := some "/drive/x",
               resourceData := none }].filterMap
        (persistNotification "secret-1") := by
  have h := c8_webhook_post_filters "secret-1"
    [{ clientState := some "secret-1", subscriptionId := some "sub-1",
       changeType := some "updated", resource := some "/drive/x",
       resourceData := none },
     { clientState := some "wrong", subscriptionId := some "sub-2",
       changeType := some "updated", resource := some "/drive/x",
       resourceData := none }] [] (by decide)
  exact ⟨h.1, h.2.1⟩

/-- The catch branch of `processWebhookNotification`: on a failed pass the
error message is written onto the unprocessed records of the triggering
subscription. -/
def markNotificationFailed (sid msg : String)
    (ns : List NotificationRecord) : List NotificationRecord :=
  ns.map (fun n =>
    if n.subscriptionId = sid ∧ n.processed = false then
      { n with processingError := some msg }
    else n)

/-- The selection query of `reprocessFailedNotifications`: unprocessed
records whose `processingError` equals the empty string, limited to a
batch of 100. -/
def reprocessFailedSelection (ns : List NotificationRecord) :
    List NotificationRecord :=
  (ns.filter (fun n => n.processed == false && n.processingError == some "")).take 100

/-- A freshly stored notification record, as the POST handler creates it. -/
def c4record : NotificationRecord :=
  { subscriptionId := "sub-1", changeType := "updated", resource := "/drive/x",
    resourceData := some "{}", processed := false, processedAt := none,
    processingError := none }

/-- C4, evaluated at the failing input: a record left by a failed pass
carries the (non-empty) error message and `processed = false`, yet the
reprocessing selection — which matches only `processingError = ''` —
returns nothing, so the failed record is never retried. -/
theorem c4_code_bug_eval :
    markNotificationFailed "sub-1" "Failed to read Excel table rows: timeout"
        [c4record] =
      [{ c4record with
          processingError := some "Failed to read Excel table rows: timeout" }] ∧
    reprocessFailedSelection
      (markNotificationFailed "sub-1"
        "Failed to read Excel table rows: timeout" [c4record]) = [] := by
  decide

/-! ## Subscription lifecycle (src/lib/graph/webhook-subscriptions.ts and
the `webhook_subscriptions` table of src/lib/db/schema.ts).  The Graph
API patch call is an oracle mapping a subscription id to success or an
error message. -/

/-- One row of `webhook_subscriptions`. -/
structure Subscription where
  id : String
  resource : String
  changeType : String
  notificationUrl : String
  clientState : String
  expirationDateTime : Nat
  active : Bool
  lastRenewed : Option Nat
  renewalAttempts : Nat
  lastError : Option String
  lastErrorAt : Option Nat
deriving Repr, DecidableEq

/-- `renewWebhookSubscription(id)`: on provider success, sets the
expiration 4230 minutes from now, records the renewal time and resets
`renewalAttempts` and the error fields; on provider failure, records the
error and error time, and writes into `renewalAttempts` the value of the
source expression `db.$count(webhookSubscriptions.renewalAttempts) + 1` —
`$count` is a row-count aggregate over the table, not the current value
of the row's column, so the model evaluates it to the number of table
rows — then re-raises a wrapped error.  Returns the updated table and the
call outcome. -/
def renewWebhookSubscription (now : Nat)
    (provider : String → Except String Unit) (subs : List Subscription)
    (sid : String) : List Subscription × Except String Unit :=
  match provider sid with
  | .ok _ =>
    (subs.map (fun s =>
      if s.id = sid then
        { s with expirationDateTime := now + 4230, lastRenewed := some now,
                 renewalAttempts := 0, lastError := none, lastErrorAt := none }
      else s), .ok ())
  | .error msg =>
    (subs.map (fun s =>
      if s.id = sid then
        { s with lastError := some msg, lastErrorAt := some now,
                 renewalAttempts := subs.length + 1 }
      else s),
      .error ("Failed to renew webhook subscription: " ++ msg))

/-- `getSubscriptionsExpiringSoon`: active subscriptions expiring within
24 hours (1440 minutes) of now. -/
def getSubscriptionsExpiringSoon (now : Nat) (subs : List Subscription) :
    List Subscription :=
  subs.filter (fun s => s.active && decide (s.expirationDateTime < now + 1440))

/-- Aggregate result of the auto-renewal job. -/
structure RenewStats where
  renewed : Nat
  failed : Nat
  errors : List String
deriving Repr, DecidableEq

/-- `autoRenewSubscriptions`: renews every subscription expiring soon,
independently; a failed renewal is caught, counted, and its message
collected, without aborting the rest of the batch. -/
def autoRenewSubscriptions (now : Nat)
    (provider : String → Except String Unit) (subs : List Subscription) :
    List Subscription × RenewStats :=
  (getSubscriptionsExpiringSoon now subs).foldl
    (fun acc s =>
      match renewWebhookSubscription now provider acc.1 s.id with
      | (cur, .ok _) =>
        (cur, { acc.2 with renewed := acc.2.renewed + 1 })
      | (cur, .error msg) =>
        (cur,
          { acc.2 with
              failed := acc.2.failed + 1,
              errors := acc.2.errors ++ [s.id ++ ": " ++ msg] }))
    (subs, ⟨0, 0, []⟩)

/-- The failing input for C5: a subscription inside the renewal window
with `renewalAttempts = 5`, the sole row of the table. -/
def c5sub : Subscription :=
  { id := "s1", resource := "/drive/x", changeType := "updated",
    notificationUrl := "https://app/api/webhooks/graph", clientState := "cs",
    expirationDateTime := 100, active := true, lastRenewed := none,
    renewalAttempts := 5, lastError := none, lastErrorAt := none }

/-- C5, evaluated at the failing input: when the provider rejects the
renewal, the error is recorded but `renewalAttempts` becomes the table
row count plus one (here 2) instead of the previous value plus one
(here 6) — the attempt counter is not incremented by exactly one. -/
theorem c5_code_bug_eval :
    (autoRenewSubscriptions 10000 (fun _ => .error "boom") [c5sub]).1 =
      [{ c5sub with lastError := some "boom", lastErrorAt := some 10000,
                    renewalAttempts := 2 }] ∧
    (autoRenewSubscriptions 10000 (fun _ => .error "boom") [c5sub]).2 =
      ⟨0, 1, ["s1: Failed to renew webhook subscription: boom"]⟩ ∧
    (2 : Nat) ≠ c5sub.renewalAttempts + 1 := by
  refine ⟨?_, ?_, by decide⟩ <;> rfl

/-! ## Reconciliation engine
(src/lib/services/webhook-processor.ts `processWebhookNotification`,
src/unnamed/part_011 `excelRowToTodo`, src/lib/db/schema.ts `todos`).
The canonical store is the `todos` table plus the notification queue;
row ids are naturals drawn from a fresh-id counter (standing in for the
random UUID primary keys).  A pass returns `none` when the batch insert
would violate the unique constraint on `task_id` — in the source that
error aborts the pass and is re-raised. -/

/-- One row of the `todos` table.  `createdAt` and `updatedAt` are never
compared by the sync logic and are omitted. -/
structure Todo where
  id : Nat
  taskId : String
  jobNumber : String
  releaseNumber : String
  palletNumber : String
  size : String
  elevation : String
  status : String
  assignedTo : Option String
  dueDate : Option String
  accList : String
  shippedDate : Option String
  notes : String
  excelRowId : String
  excelRowIndex : Nat
  deleted : Bool
deriving Repr, DecidableEq

/-- The insert/update payload produced by `excelRowToTodo`. -/
structure TodoData where
  taskId : String
  jobNumber : String
  releaseNumber : String
  palletNumber : String
  size : String
  elevation : String
  status : String
  assignedTo : Option String
  dueDate : Option String
  accList : String
  shippedDate : Option String
  notes : String
  excelRowId : String
  excelRowIndex : Nat
deriving Repr, DecidableEq

/-- A row of the external Excel table as returned by the Graph API. -/
structure ExcelTableRow where
  id : String
  index : Nat
  values : List (List String)
deriving Repr, DecidableEq

/-- `values[i] || ""` over the first values row. -/
def getS (vs : List String) (i : Nat) : String :=
  vs.getD i ""

/-- `values[i] || null`: both a missing and an empty cell become null. -/
def getOpt (vs : List String) (i : Nat) : Option String :=
  if vs.getD i "" = "" then none else some (vs.getD i "")

/-- `excelRowToTodo` from the Graph Excel operations module: positional
mapping of the twelve table columns, with `|| ''`, `|| null` and
`|| 'new'` defaulting exactly as in the source.  The due date is carried
as the raw cell string (it is never compared by the sync logic). -/
def excelRowToTodo (row : ExcelTableRow) : TodoData :=
  let values := (row.values.get? 0).getD []
  { taskId := getS values 0,
    jobNumber := getS values 1,
    releaseNumber := getS values 2,
    palletNumber := getS values 3,
    size := getS values 4,
    elevation := getS values 5,
    status := if getS values 6 = "" then "new" else getS values 6,
    assignedTo := getOpt values 7,
    dueDate := getOpt values 8,
    accList := getS values 9,
    shippedDate := getOpt values 10,
    notes := getS values 11,
    excelRowId := row.id,
    excelRowIndex := row.index }

/-- The field-level change detection of the processor: the ten syncable
fields it compares (`dueDate`, `excelRowId` and `excelRowIndex` are not
among them). -/
def hasChanges (e : Todo) (d : TodoData) : Bool :=
  e.jobNumber != d.jobNumber || e.releaseNumber != d.releaseNumber ||
  e.palletNumber != d.palletNumber || e.size != d.size ||
  e.elevation != d.elevation || e.status != d.status ||
  e.assignedTo != d.assignedTo || e.accList != d.accList ||
  e.shippedDate != d.shippedDate || e.notes != d.notes

/-- The canonical store state a pass reads and writes: the todos table,
the notification queue, and the fresh-id counter for inserted rows. -/
structure SyncState where
  todos : List Todo
  queue : List QueueItem
  nextId : Nat
deriving Repr, DecidableEq

/-- The non-deleted todos, as selected at the start of a pass. -/
def activeTodos (ts : List Todo) : List Todo :=
  ts.filter (fun t => !t.deleted)

/-- Lookup in the `Map` the pass builds from the non-deleted todos: with
duplicate keys the later entry wins, so this is a backwards search. -/
def mapGet (ts : List Todo) (tid : String) : Option Todo :=
  ts.reverse.find? (fun t => t.taskId == tid)

/-- The taskId a row contributes to `excelRowsByTaskId` (none when the
row has no taskId and is skipped). -/
def rowTid (r : ExcelTableRow) : Option String :=
  if (excelRowToTodo r).taskId = "" then none
  else some (excelRowToTodo r).taskId

/-- The insert a row stages: its data, when the row has a taskId that is
absent from the pre-pass map. -/
def stageNew (existing : List Todo) (r : ExcelTableRow) : Option TodoData :=
  let d := excelRowToTodo r
  if d.taskId = "" then none
  else
    match mapGet existing d.taskId with
    | some _ => none
    | none => some d

/-- The update a row stages: its data, when the row's taskId is present
in the pre-pass map and some compared field differs. -/
def stageUpd (existing : List Todo) (r : ExcelTableRow) : Option TodoData :=
  let d := excelRowToTodo r
  if d.taskId = "" then none
  else
    match mapGet existing d.taskId with
    | some e => if hasChanges e d then some d else none
    | none => none

/-- `queueNotification`: a fresh pending queue row with the schema
defaults. -/
def mkQueueItem (now : Nat) (recipient subject message : String)
    (todoId : Option Nat) : QueueItem :=
  { type := "in_app", recipient, subject, message, todoId,
    status := .pending, retryCount := 0, maxRetries := 3,
    nextRetryAt := now, sentAt := none, failureReason := none }

/-- The notifications a row queues while being staged: one per detected
status transition into in-progress or done, addressed to the row's
assignee or, when unassigned, to `admin`. -/
def rowTransitionNotifs (now : Nat) (existing : List Todo)
    (r : ExcelTableRow) : List QueueItem :=
  let d := excelRowToTodo r
  if d.taskId = "" then []
  else
    match mapGet existing d.taskId with
    | none => []
    | some e =>
      if hasChanges e d then
        (if e.status ≠ d.status ∧ d.status = "in_progress" then
          [mkQueueItem now (d.assignedTo.getD "admin") "Task Started"
            ("Task " ++ d.jobNumber ++ "-" ++ d.releaseNumber ++ "-" ++
              d.palletNumber ++ " is now in progress") (some e.id)]
        else []) ++
        (if e.status ≠ d.status ∧ d.status = "done" then
          [mkQueueItem now (d.assignedTo.getD "admin") "Task Completed"
            ("Task " ++ d.jobNumber ++ "-" ++ d.releaseNumber ++ "-" ++
              d.palletNumber ++ " is completed") (some e.id)]
        else [])
      else []

/-- A row inserted for staged data, with a fresh id and `deleted = false`. -/
def mkTodo (i : Nat) (d : TodoData) : Todo :=
  { id := i, taskId := d.taskId, jobNumber := d.jobNumber,
    releaseNumber := d.releaseNumber, palletNumber := d.palletNumber,
    size := d.size, elevation := d.elevation, status := d.status,
    assignedTo := d.assignedTo, dueDate := d.dueDate, accList := d.accList,
    shippedDate := d.shippedDate, notes := d.notes,
    excelRowId := d.excelRowId, excelRowIndex := d.excelRowIndex,
    deleted := false }

/-- The field-level patch an update applies (`set(update.data)`): every
payload field is written; `id` and `deleted` are untouched. -/
def patchTodo (t : Todo) (d : TodoData) : Todo :=
  { t with
    taskId := d.taskId, jobNumber := d.jobNumber,
    releaseNumber := d.releaseNumber, palletNumber := d.palletNumber,
    size := d.size, elevation := d.elevation, status := d.status,
    assignedTo := d.assignedTo, dueDate := d.dueDate, accList := d.accList,
    shippedDate := d.shippedDate, notes := d.notes,
    excelRowId := d.excelRowId, excelRowIndex := d.excelRowIndex }

/-- Effect of the staged updates on one stored row: each update statement
patches every row whose `taskId` matches (deleted ones included). -/
def elemUpd (upds : List TodoData) (t : Todo) : Todo :=
  upds.foldl (fun t2 d => if t2.taskId = d.taskId then patchTodo t2 d else t2) t

/-- Effect of the staged soft-deletes on one stored row. -/
def elemDel (ids : List Nat) (t : Todo) : Todo :=
  if ids.contains t.id then { t with deleted := true } else t

/-- The notifications queued after the batch insert, one per inserted todo
with a (truthy) assignee. -/
def insertNotifs (now : Nat) (inserted : List Todo) : List QueueItem :=
  inserted.filterMap (fun t =>
    match t.assignedTo with
    | some a =>
      if a = "" then none
      else some (mkQueueItem now a "New Task Assigned"
        ("You have been assigned task: " ++ t.jobNumber ++ "-" ++
          t.releaseNumber ++ "-" ++ t.palletNumber) (some t.id))
    | none => none)

/-- The rows the batch insert creates: sequential fresh ids starting at
the insert counter. -/
def mkInserted (base : Nat) : List TodoData → List Todo
  | [] => []
  | d :: rest => mkTodo base d :: mkInserted (base + 1) rest

/-- What a pass stages and queues. -/
structure PassReport where
  inserted : Nat
  updated : Nat
  deleted : Nat
  queued : List QueueItem
deriving Repr, DecidableEq

/-- One reconciliation pass of `processWebhookNotification` over the full
external snapshot `rows`: stage per-row inserts/updates (with their
transition notifications) against the pre-pass map of non-deleted todos,
stage soft-deletes for the active todos absent from the snapshot, then
apply inserts, updates and deletes in that order and queue the
new-assignment notifications.  `none` models the pass aborting on the
batch insert when a staged taskId collides with a stored row (deleted
rows included — `task_id` is unique table-wide) or within the batch. -/
def processPass (now : Nat) (rows : List ExcelTableRow) (s : SyncState) :
    Option (SyncState × PassReport) :=
  let existing := activeTodos s.todos
  let news := rows.filterMap (stageNew existing)
  let upds := rows.filterMap (stageUpd existing)
  let transNotifs := (rows.map (rowTransitionNotifs now existing)).flatten
  let seen := rows.filterMap rowTid
  let delIds := (existing.filter (fun t => !(seen.contains t.taskId))).map
    (fun t => t.id)
  if (news.map (fun d => d.taskId)).Nodup ∧
      ∀ d ∈ news, ∀ t ∈ s.todos, t.taskId ≠ d.taskId then
    let inserted := mkInserted s.nextId news
    let todosAfter := ((s.todos ++ inserted).map (elemUpd upds)).map
      (elemDel delIds)
    let insNotifs := insertNotifs now inserted
    some ({ todos := todosAfter,
            queue := s.queue ++ transNotifs ++ insNotifs,
            nextId := s.nextId + news.length },
          { inserted := news.length, updated := upds.length,
            deleted := delIds.length, queued := transNotifs ++ insNotifs })
  else none

/-- The database invariants of the `todos` table: primary keys are
distinct and below the fresh-id counter, and `task_id` is unique across
all rows (deleted included), as the schema declares. -/
def WellFormed (s : SyncState) : Prop :=
  (s.todos.map (fun t => t.id)).Nodup ∧
  (∀ t ∈ s.todos, t.id < s.nextId) ∧
  (s.todos.map (fun t => t.taskId)).Nodup

/-- The snapshot rows carry pairwise-distinct (nonempty) taskIds. -/
def TidsDistinct (rows : List ExcelTableRow) : Prop :=
  (rows.filterMap rowTid).Nodup

/-! ### Basic lemmas about the pass building blocks -/

theorem mapGet_eq_none_iff (ts : List Todo) (tid : String) :
    mapGet ts tid = none ↔ ∀ t ∈ ts, t.taskId ≠ tid := by
  rw [mapGet, List.find?_eq_none]
  constructor
  · intro h t ht
    have := h t (List.mem_reverse.mpr ht)
    simpa using this
  · intro h t ht
    have := h t (List.mem_reverse.mp ht)
    simpa using this

theorem mapGet_some_mem (ts : List Todo) (tid : String) (e : Todo)
    (h : mapGet ts tid = some e) : e ∈ ts ∧ e.taskId = tid := by
  rw [mapGet] at h
  refine ⟨List.mem_reverse.mp (List.mem_of_find?_eq_some h), ?_⟩
  have := List.find?_some h
  simpa using this

theorem mapGet_isSome_of_mem (ts : List Todo) (t : Todo)
    (ht : t ∈ ts) : (mapGet ts t.taskId).isSome := by
  cases h : mapGet ts t.taskId with
  | some e => rfl
  | none =>
    rw [mapGet_eq_none_iff] at h
    exact absurd rfl (h t ht)

theorem mapGet_unique (ts : List Todo) (t : Todo)
    (hnd : (ts.map (fun t => t.taskId)).Nodup) (ht : t ∈ ts) :
    mapGet ts t.taskId = some t := by
  cases h : mapGet ts t.taskId with
  | none =>
    rw [mapGet_eq_none_iff] at h
    exact absurd rfl (h t ht)
  | some e =>
    obtain ⟨he, hetid⟩ := mapGet_some_mem ts t.taskId e h
    have := List.inj_on_of_nodup_map hnd he ht hetid
    rw [this]

theorem patchTodo_id (t : Todo) (d : TodoData) : (patchTodo t d).id = t.id := rfl

theorem patchTodo_deleted (t : Todo) (d : TodoData) :
    (patchTodo t d).deleted = t.deleted := rfl

theorem hasChanges_patchTodo (t : Todo) (d : TodoData) :
    hasChanges (patchTodo t d) d = false := by
  simp [hasChanges, patchTodo]

theorem hasChanges_mkTodo (i : Nat) (d : TodoData) :
    hasChanges (mkTodo i d) d = false := by
  simp [hasChanges, mkTodo]

theorem elemUpd_taskId (upds : List TodoData) (t : Todo) :
    (elemUpd upds t).taskId = t.taskId := by
  induction upds generalizing t with
  | nil => rfl
  | cons d rest ih =>
    rw [elemUpd, List.foldl_cons]
    by_cases h : t.taskId = d.taskId
    · rw [if_pos h]
      have := ih (patchTodo t d)
      rw [elemUpd] at this
      rw [this]
      simp [patchTodo, h]
    · rw [if_neg h]
      have := ih t
      rw [elemUpd] at this
      exact this

theorem elemUpd_id (upds : List TodoData) (t : Todo) :
    (elemUpd upds t).id = t.id := by
  induction upds generalizing t with
  | nil => rfl
  | cons d rest ih =>
    rw [elemUpd, List.foldl_cons]
    by_cases h : t.taskId = d.taskId
    · rw [if_pos h]
      have := ih (patchTodo t d)
      rw [elemUpd] at this
      rw [this, patchTodo_id]
    · rw [if_neg h]
      have := ih t
      rw [elemUpd] at this
      exact this

theorem elemUpd_deleted (upds : List TodoData) (t : Todo) :
    (elemUpd upds t).deleted = t.deleted := by
  induction upds generalizing t with
  | nil => rfl
  | cons d rest ih =>
    rw [elemUpd, List.foldl_cons]
    by_cases h : t.taskId = d.taskId
    · rw [if_pos h]
      have := ih (patchTodo t d)
      rw [elemUpd] at this
      rw [this, patchTodo_deleted]
    · rw [if_neg h]
      have := ih t
      rw [elemUpd] at this
      exact this

theorem elemUpd_filter (upds : List TodoData) (t : Todo) :
    elemUpd upds t =
      elemUpd (upds.filter (fun d => d.taskId == t.taskId)) t := by
  induction upds generalizing t with
  | nil => rfl
  | cons d rest ih =>
    rw [elemUpd, List.foldl_cons, List.filter_cons]
    by_cases h : t.taskId = d.taskId
    · rw [if_pos h]
      have hbeq : (d.taskId == t.taskId) = true := by
        simp [h.symm]
      rw [if_pos hbeq, elemUpd, List.foldl_cons, if_pos h]
      have hsame : (patchTodo t d).taskId = t.taskId := by
        simp [patchTodo, h]
      have := ih (patchTodo t d)
      rw [elemUpd] at this
      rw [this, hsame]
      rfl
    · rw [if_neg h]
      have hbeq : (d.taskId == t.taskId) = false := by
        simp
        intro hc
        exact absurd hc.symm h
      rw [if_neg (by simp [hbeq])]
      have := ih t
      rw [elemUpd] at this
      exact this

theorem elemUpd_nil (t : Todo) : elemUpd [] t = t := rfl

theorem elemUpd_single (d : TodoData) (t : Todo) (h : d.taskId = t.taskId) :
    elemUpd [d] t = patchTodo t d := by
  rw [elemUpd, List.foldl_cons, if_pos h.symm, List.foldl_nil]

theorem elemDel_taskId (ids : List Nat) (t : Todo) :
    (elemDel ids t).taskId = t.taskId := by
  rw [elemDel]
  split <;> rfl

theorem elemDel_id (ids : List Nat) (t : Todo) :
    (elemDel ids t).id = t.id := by
  rw [elemDel]
  split <;> rfl

theorem elemDel_not_mem (ids : List Nat) (t : Todo) (h : t.id ∉ ids) :
    elemDel ids t = t := by
  rw [elemDel, if_neg (by simpa using h)]

theorem elemDel_deleted (ids : List Nat) (t : Todo) :
    (elemDel ids t).deleted = (t.deleted || ids.contains t.id) := by
  rw [elemDel]
  by_cases h : t.id ∈ ids
  · rw [if_pos (by simpa using h)]
    simp [h]
  · rw [if_neg (by simpa using h)]
    simp [h]

/-! ### Lemmas about what rows stage -/

theorem stageUpd_rowTid (E : List Todo) (r : ExcelTableRow) (d : TodoData)
    (h : stageUpd E r = some d) :
    rowTid r = some d.taskId ∧ d = excelRowToTodo r := by
  rw [stageUpd] at h
  rw [rowTid]
  by_cases h0 : (excelRowToTodo r).taskId = ""
  · simp [h0] at h
  · simp only [h0, if_false] at h ⊢
    cases hm : mapGet E (excelRowToTodo r).taskId with
    | none => rw [hm] at h; cases h
    | some e =>
      rw [hm] at h
      by_cases hc : hasChanges e (excelRowToTodo r) = true
      · simp [hc] at h
        exact ⟨by rw [h], h.symm⟩
      · simp [hc] at h

theorem stageNew_rowTid (E : List Todo) (r : ExcelTableRow) (d : TodoData)
    (h : stageNew E r = some d) :
    rowTid r = some d.taskId ∧ d = excelRowToTodo r ∧
      mapGet E d.taskId = none := by
  rw [stageNew] at h
  rw [rowTid]
  by_cases h0 : (excelRowToTodo r).taskId = ""
  · simp [h0] at h
  · simp only [h0, if_false] at h ⊢
    cases hm : mapGet E (excelRowToTodo r).taskId with
    | none =>
      rw [hm] at h
      simp at h
      exact ⟨by rw [h], h.symm, by rw [← h]; exact hm⟩
    | some e => rw [hm] at h; simp at h

/-- The taskIds of the staged updates form a sublist of the snapshot
taskIds (one entry per row, kept or dropped). -/
theorem stageUpd_tids_sublist (E : List Todo) (rows : List ExcelTableRow) :
    ((rows.filterMap (stageUpd E)).map (fun d => d.taskId)).Sublist
      (rows.filterMap rowTid) := by
  induction rows with
  | nil => simp
  | cons r rest ih =>
    rw [List.filterMap_cons, List.filterMap_cons]
    cases hs : stageUpd E r with
    | some d =>
      obtain ⟨ht, _⟩ := stageUpd_rowTid E r d hs
      rw [ht, List.map_cons]
      exact ih.cons₂ d.taskId
    | none =>
      cases ht : rowTid r with
      | some tid => exact ih.cons tid
      | none => exact ih

theorem stageNew_tids_sublist (E : List Todo) (rows : List ExcelTableRow) :
    ((rows.filterMap (stageNew E)).map (fun d => d.taskId)).Sublist
      (rows.filterMap rowTid) := by
  induction rows with
  | nil => simp
  | cons r rest ih =>
    rw [List.filterMap_cons, List.filterMap_cons]
    cases hs : stageNew E r with
    | some d =>
      obtain ⟨ht, _⟩ := stageNew_rowTid E r d hs
      rw [ht, List.map_cons]
      exact ih.cons₂ d.taskId
    | none =>
      cases ht : rowTid r with
      | some tid => exact ih.cons tid
      | none => exact ih

/-- Localisation of the staged updates at one row's taskId: with pairwise
distinct snapshot taskIds, the updates carrying that taskId are exactly
what that row stages. -/
theorem stageUpd_localise (E : List Todo) (rows : List ExcelTableRow)
    (hnd : (rows.filterMap rowTid).Nodup) (r : ExcelTableRow) (hr : r ∈ rows)
    (tid : String) (ht : rowTid r = some tid) :
    (rows.filterMap (stageUpd E)).filter (fun u => u.taskId == tid) =
      (match stageUpd E r with
       | some u => [u]
       | none => []) := by
  induction rows with
  | nil => cases hr
  | cons r0 rest ih =>
    rw [List.filterMap_cons]
    have htail_nodup : (rest.filterMap rowTid).Nodup := by
      rw [List.filterMap_cons] at hnd
      cases h0 : rowTid r0 with
      | some t0 => rw [h0] at hnd; exact hnd.of_cons
      | none => rw [h0] at hnd; exact hnd
    rcases List.mem_cons.mp hr with heq | hmem
    · subst heq
      have htail : (rest.filterMap (stageUpd E)).filter
          (fun u => u.taskId == tid) = [] := by
        rw [List.filter_eq_nil_iff]
        intro u hu
        intro hbeq
        have htid_eq : u.taskId = tid := by simpa using hbeq
        have hmem2 : u.taskId ∈ (rest.filterMap (stageUpd E)).map
            (fun d => d.taskId) := List.mem_map_of_mem _ hu
        have hmem3 : u.taskId ∈ rest.filterMap rowTid :=
          (stageUpd_tids_sublist E rest).mem hmem2
        rw [List.filterMap_cons, ht] at hnd
        rw [htid_eq] at hmem3
        exact (List.nodup_cons.mp hnd).1 hmem3
      cases hs : stageUpd E r with
      | some u =>
        obtain ⟨htu, _⟩ := stageUpd_rowTid E r u hs
        have hut : u.taskId = tid := by
          have := ht.symm.trans htu
          injection this with h2
          exact h2.symm
        simp [List.filter_cons, hut, htail]
      | none =>
        exact htail
    · have hih := ih htail_nodup hmem
      cases hs0 : stageUpd E r0 with
      | some u0 =>
        have hu0 : u0.taskId ≠ tid := by
          intro hc
          obtain ⟨htu0, _⟩ := stageUpd_rowTid E r0 u0 hs0
          rw [List.filterMap_cons, htu0, hc] at hnd
          have : tid ∈ rest.filterMap rowTid :=
            List.mem_filterMap.mpr ⟨r, hmem, ht⟩
          exact (List.nodup_cons.mp hnd).1 this
        have hfc : (List.filter (fun u => u.taskId == tid)
            (u0 :: rest.filterMap (stageUpd E))) =
            List.filter (fun u => u.taskId == tid)
              (rest.filterMap (stageUpd E)) := by
          rw [List.filter_cons, if_neg (by simpa using hu0)]
        exact hfc.trans hih
      | none =>
        exact hih

/-! ### Decomposition of a pass into named pieces -/

/-- The pre-pass map source: the non-deleted todos. -/
def passExisting (s : SyncState) : List Todo :=
  activeTodos s.todos

/-- The staged inserts of a pass. -/
def passNews (rows : List ExcelTableRow) (s : SyncState) : List TodoData :=
  rows.filterMap (stageNew (passExisting s))

/-- The staged updates of a pass. -/
def passUpds (rows : List ExcelTableRow) (s : SyncState) : List TodoData :=
  rows.filterMap (stageUpd (passExisting s))

/-- The snapshot taskIds seen by a pass. -/
def passSeen (rows : List ExcelTableRow) : List String :=
  rows.filterMap rowTid

/-- The ids staged for soft-deletion. -/
def passDelIds (rows : List ExcelTableRow) (s : SyncState) : List Nat :=
  ((passExisting s).filter
    (fun t => !((passSeen rows).contains t.taskId))).map (fun t => t.id)

/-- The rows the batch insert creates. -/
def passInserted (rows : List ExcelTableRow) (s : SyncState) : List Todo :=
  mkInserted s.nextId (passNews rows s)

/-- The per-row effect of applying the staged updates and soft-deletes. -/
def passApply (rows : List ExcelTableRow) (s : SyncState) (t : Todo) : Todo :=
  elemDel (passDelIds rows s) (elemUpd (passUpds rows s) t)

/-- The transition notifications queued while staging. -/
def passTrans (now : Nat) (rows : List ExcelTableRow) (s : SyncState) :
    List QueueItem :=
  (rows.map (rowTransitionNotifs now (passExisting s))).flatten

/-- The batch insert succeeds: staged taskIds are pairwise distinct and
collide with no stored row. -/
def passInsertOk (rows : List ExcelTableRow) (s : SyncState) : Prop :=
  ((passNews rows s).map (fun d => d.taskId)).Nodup ∧
    ∀ d ∈ passNews rows s, ∀ t ∈ s.todos, t.taskId ≠ d.taskId

theorem processPass_some_spec (now : Nat) (rows : List ExcelTableRow)
    (s s1 : SyncState) (rep : PassReport)
    (h : processPass now rows s = some (s1, rep)) :
    passInsertOk rows s ∧
    s1.todos = (s.todos ++ passInserted rows s).map (passApply rows s) ∧
    s1.nextId = s.nextId + (passNews rows s).length ∧
    s1.queue = s.queue ++ passTrans now rows s ++
      insertNotifs now (passInserted rows s) ∧
    rep = ⟨(passNews rows s).length, (passUpds rows s).length,
      (passDelIds rows s).length,
      passTrans now rows s ++ insertNotifs now (passInserted rows s)⟩ := by
  simp only [processPass] at h
  by_cases hc : ((rows.filterMap (stageNew (activeTodos s.todos))).map
      (fun d => d.taskId)).Nodup ∧
      ∀ d ∈ rows.filterMap (stageNew (activeTodos s.todos)),
        ∀ t ∈ s.todos, t.taskId ≠ d.taskId
  · rw [if_pos hc] at h
    have h' := Option.some.inj h
    injection h' with h1 h2
    subst h1
    subst h2
    refine ⟨hc, ?_, rfl, rfl, rfl⟩
    show (((s.todos ++ passInserted rows s).map
      (elemUpd (passUpds rows s))).map (elemDel (passDelIds rows s))) = _
    rw [List.map_map]
    rfl
  · rw [if_neg hc] at h
    cases h

/-! ### Facts about the applied state of a completed pass -/

theorem passApply_taskId (rows : List ExcelTableRow) (s : SyncState)
    (t : Todo) : (passApply rows s t).taskId = t.taskId := by
  rw [passApply, elemDel_taskId, elemUpd_taskId]

theorem passApply_id (rows : List ExcelTableRow) (s : SyncState)
    (t : Todo) : (passApply rows s t).id = t.id := by
  rw [passApply, elemDel_id, elemUpd_id]

theorem elemUpd_noop (upds : List TodoData) (t : Todo)
    (h : ∀ d ∈ upds, d.taskId ≠ t.taskId) : elemUpd upds t = t := by
  rw [elemUpd_filter]
  have : upds.filter (fun d => d.taskId == t.taskId) = [] := by
    rw [List.filter_eq_nil_iff]
    intro d hd
    simpa using h d hd
  rw [this, elemUpd_nil]

theorem stageUpd_mapGet (E : List Todo) (r : ExcelTableRow) (d : TodoData)
    (h : stageUpd E r = some d) :
    ∃ e, mapGet E d.taskId = some e ∧ hasChanges e d = true := by
  have hd := (stageUpd_rowTid E r d h).2
  rw [stageUpd] at h
  by_cases h0 : (excelRowToTodo r).taskId = ""
  · simp [h0] at h
  · simp only [h0, if_false] at h
    cases hm : mapGet E (excelRowToTodo r).taskId with
    | none => rw [hm] at h; simp at h
    | some e =>
      rw [hm] at h
      by_cases hc : hasChanges e (excelRowToTodo r) = true
      · exact ⟨e, by rw [← hd] at hm; exact hm, by rw [← hd] at hc; exact hc⟩
      · simp [hc] at h

theorem mkInserted_mem (news : List TodoData) (d : TodoData) :
    ∀ base, d ∈ news →
      ∃ n, base ≤ n ∧ mkTodo n d ∈ mkInserted base news := by
  induction news with
  | nil => intro base h; cases h
  | cons d0 rest ih =>
    intro base h
    rcases List.mem_cons.mp h with heq | hmem
    · subst heq
      exact ⟨base, le_rfl, List.mem_cons_self _ _⟩
    · obtain ⟨n, hn, hmem2⟩ := ih (base + 1) hmem
      exact ⟨n, by omega, List.mem_cons_of_mem _ hmem2⟩

theorem mkInserted_mem_elim (news : List TodoData) (t : Todo) :
    ∀ base, t ∈ mkInserted base news →
      ∃ d ∈ news, ∃ n, base ≤ n ∧ t = mkTodo n d := by
  induction news with
  | nil => intro base h; cases h
  | cons d0 rest ih =>
    intro base h
    rcases List.mem_cons.mp h with heq | hmem
    · exact ⟨d0, List.mem_cons_self _ _, base, le_rfl, heq⟩
    · obtain ⟨d, hd, n, hn, ht⟩ := ih (base + 1) hmem
      exact ⟨d, List.mem_cons_of_mem _ hd, n, by omega, ht⟩

theorem mkInserted_map_taskId (news : List TodoData) :
    ∀ base, (mkInserted base news).map (fun t => t.taskId) =
      news.map (fun d => d.taskId) := by
  induction news with
  | nil => intro base; rfl
  | cons d0 rest ih =>
    intro base
    rw [mkInserted, List.map_cons, List.map_cons, ih]
    rfl

theorem mem_passDelIds (rows : List ExcelTableRow) (s : SyncState) (x : Nat) :
    x ∈ passDelIds rows s ↔
      ∃ u ∈ passExisting s, u.id = x ∧
        ((passSeen rows).contains u.taskId) = false := by
  rw [passDelIds, List.mem_map]
  constructor
  · rintro ⟨u, hu, hx⟩
    rw [List.mem_filter] at hu
    exact ⟨u, hu.1, hx, by simpa using hu.2⟩
  · rintro ⟨u, hu, hx, hc⟩
    exact ⟨u, List.mem_filter.mpr ⟨hu, by simpa using hc⟩, hx⟩

theorem not_mem_passDelIds_of_seen (rows : List ExcelTableRow)
    (s : SyncState) (hids : (s.todos.map (fun t => t.id)).Nodup) (e : Todo)
    (he : e ∈ s.todos)
    (hseen : ((passSeen rows).contains e.taskId) = true) :
    e.id ∉ passDelIds rows s := by
  intro hmem
  obtain ⟨u, hu, hid, hc⟩ := (mem_passDelIds rows s e.id).mp hmem
  have hus : u ∈ s.todos := List.mem_of_mem_filter hu
  have : u = e := List.inj_on_of_nodup_map hids hus he hid
  rw [this] at hc
  rw [hseen] at hc
  cases hc

theorem passDelIds_lt_nextId (rows : List ExcelTableRow) (s : SyncState)
    (hlt : ∀ t ∈ s.todos, t.id < s.nextId) (x : Nat)
    (hx : x ∈ passDelIds rows s) : x < s.nextId := by
  obtain ⟨u, hu, hid, _⟩ := (mem_passDelIds rows s x).mp hx
  have hus : u ∈ s.todos := List.mem_of_mem_filter hu
  rw [← hid]
  exact hlt u hus

theorem passUpds_not_new_tid (rows : List ExcelTableRow) (s : SyncState)
    (tid : String) (hnone : mapGet (passExisting s) tid = none) :
    ∀ d ∈ passUpds rows s, d.taskId ≠ tid := by
  intro d hd hc
  obtain ⟨r, hr, hs⟩ := List.mem_filterMap.mp hd
  obtain ⟨e, hm, _⟩ := stageUpd_mapGet (passExisting s) r d hs
  rw [hc, hnone] at hm
  cases hm

theorem s1_todos_map_taskId (rows : List ExcelTableRow) (s : SyncState) :
    (((s.todos ++ passInserted rows s).map (passApply rows s)).map
        (fun t => t.taskId)) =
      s.todos.map (fun t => t.taskId) ++
        (passNews rows s).map (fun d => d.taskId) := by
  rw [List.map_map]
  have : ((fun t => t.taskId) ∘ passApply rows s) = fun t : Todo => t.taskId := by
    funext t
    exact passApply_taskId rows s t
  rw [this, List.map_append, passInserted, mkInserted_map_taskId]

theorem s1_todos_tids_nodup (rows : List ExcelTableRow) (s : SyncState)
    (hwf : WellFormed s) (hok : passInsertOk rows s) :
    (((s.todos ++ passInserted rows s).map (passApply rows s)).map
      (fun t => t.taskId)).Nodup := by
  rw [s1_todos_map_taskId]
  rw [List.nodup_append]
  refine ⟨hwf.2.2, hok.1, ?_⟩
  intro x hx hy
  obtain ⟨t, ht, htx⟩ := List.mem_map.mp hx
  obtain ⟨d, hd, hdx⟩ := List.mem_map.mp hy
  exact hok.2 d hd t ht (htx.trans hdx.symm)

theorem active_tids_nodup (ts : List Todo)
    (h : (ts.map (fun t => t.taskId)).Nodup) :
    ((activeTodos ts).map (fun t => t.taskId)).Nodup :=
  ((List.filter_sublist ts).map (fun t => t.taskId)).nodup h

theorem stageUpd_none_hasChanges (E : List Todo) (r : ExcelTableRow)
    (e : Todo) (h : stageUpd E r = none)
    (h0 : (excelRowToTodo r).taskId ≠ "")
    (hm : mapGet E (excelRowToTodo r).taskId = some e) :
    hasChanges e (excelRowToTodo r) = false := by
  rw [stageUpd] at h
  simp only [h0, if_false, hm] at h
  by_cases hc : hasChanges e (excelRowToTodo r) = true
  · simp [hc] at h
  · simpa using hc

theorem rowTid_some (r : ExcelTableRow) (tid : String)
    (h : rowTid r = some tid) :
    (excelRowToTodo r).taskId = tid ∧ (excelRowToTodo r).taskId ≠ "" := by
  rw [rowTid] at h
  by_cases h0 : (excelRowToTodo r).taskId = ""
  · simp [h0] at h
  · simp only [h0, if_false] at h
    injection h with h1
    exact ⟨h1, h0⟩

theorem mem_passSeen (rows : List ExcelTableRow) (r : ExcelTableRow)
    (tid : String) (hr : r ∈ rows) (ht : rowTid r = some tid) :
    tid ∈ passSeen rows :=
  List.mem_filterMap.mpr ⟨r, hr, ht⟩

/-- Heart of the idempotence argument: after a completed pass, every
snapshot row with a taskId resolves in the post-pass store to a row whose
compared fields all equal the row's data. -/
theorem pass2_row_resolved (now : Nat) (rows : List ExcelTableRow)
    (s s1 : SyncState) (rep : PassReport)
    (hwf : WellFormed s) (hdist : TidsDistinct rows)
    (hpass : processPass now rows s = some (s1, rep))
    (r : ExcelTableRow) (hr : r ∈ rows) (tid : String)
    (ht : rowTid r = some tid) :
    ∃ e1, mapGet (activeTodos s1.todos) tid = some e1 ∧
      hasChanges e1 (excelRowToTodo r) = false := by
  obtain ⟨hok, htodos, _, _, _⟩ :=
    processPass_some_spec now rows s s1 rep hpass
  obtain ⟨htid, h0⟩ := rowTid_some r tid ht
  have hseen : tid ∈ passSeen rows := mem_passSeen rows r tid hr ht
  have hE1nodup : ((activeTodos s1.todos).map (fun t => t.taskId)).Nodup := by
    rw [htodos]
    exact active_tids_nodup _ (s1_todos_tids_nodup rows s hwf hok)
  cases hm : mapGet (passExisting s) tid with
  | some e =>
    obtain ⟨heE, hetid⟩ := mapGet_some_mem _ tid e hm
    have hes : e ∈ s.todos := List.mem_of_mem_filter heE
    have hedel : e.deleted = false := by
      rw [passExisting, activeTodos, List.mem_filter] at heE
      simpa using heE.2
    have hseenc : ((passSeen rows).contains e.taskId) = true := by
      rw [hetid]
      simpa using hseen
    have hnotdel : e.id ∉ passDelIds rows s :=
      not_mem_passDelIds_of_seen rows s hwf.1 e hes hseenc
    have hmem1 : passApply rows s e ∈ s1.todos := by
      rw [htodos]
      exact List.mem_map_of_mem _ (List.mem_append_left _ hes)
    cases hsu : stageUpd (passExisting s) r with
    | some u =>
      have hud : u = excelRowToTodo r :=
        (stageUpd_rowTid (passExisting s) r u hsu).2
      have hfilter : (passUpds rows s).filter
          (fun x => x.taskId == e.taskId) = [u] := by
        rw [hetid]
        have := stageUpd_localise (passExisting s) rows hdist r hr tid ht
        rw [hsu] at this
        exact this
      have happ : passApply rows s e = patchTodo e u := by
        rw [passApply, elemUpd_filter, hfilter, elemUpd_single u e
          (by rw [hud, htid, hetid]), elemDel_not_mem]
        rw [patchTodo_id]
        exact hnotdel
      refine ⟨patchTodo e u, ?_, ?_⟩
      · have hmemAct : patchTodo e u ∈ activeTodos s1.todos := by
          rw [activeTodos, List.mem_filter]
          refine ⟨by rw [← happ]; exact hmem1, ?_⟩
          rw [patchTodo_deleted, hedel]
          rfl
        have := mapGet_unique (activeTodos s1.todos) (patchTodo e u)
          hE1nodup hmemAct
        have htid2 : (patchTodo e u).taskId = tid := by
          show u.taskId = tid
          rw [hud, htid]
        rw [htid2] at this
        exact this
      · rw [hud]
        exact hasChanges_patchTodo e (excelRowToTodo r)
    | none =>
      have hfilter : (passUpds rows s).filter
          (fun x => x.taskId == e.taskId) = [] := by
        rw [hetid]
        have := stageUpd_localise (passExisting s) rows hdist r hr tid ht
        rw [hsu] at this
        exact this
      have happ : passApply rows s e = e := by
        rw [passApply, elemUpd_filter, hfilter, elemUpd_nil,
          elemDel_not_mem _ _ hnotdel]
      refine ⟨e, ?_, ?_⟩
      · have hmemAct : e ∈ activeTodos s1.todos := by
          rw [activeTodos, List.mem_filter]
          refine ⟨by rw [← happ]; exact hmem1, by simpa using hedel⟩
        have := mapGet_unique (activeTodos s1.todos) e hE1nodup hmemAct
        rw [hetid] at this
        exact this
      · exact stageUpd_none_hasChanges (passExisting s) r e hsu h0
          (by rw [htid]; exact hm)
  | none =>
    have hsn : stageNew (passExisting s) r = some (excelRowToTodo r) := by
      rw [stageNew]
      simp only [h0, if_false]
      rw [htid, hm]
    have hd : excelRowToTodo r ∈ passNews rows s :=
      List.mem_filterMap.mpr ⟨r, hr, hsn⟩
    obtain ⟨n, hn, hmemI⟩ :=
      mkInserted_mem (passNews rows s) (excelRowToTodo r) s.nextId hd
    have hmem1 : passApply rows s (mkTodo n (excelRowToTodo r)) ∈ s1.todos := by
      rw [htodos]
      exact List.mem_map_of_mem _ (List.mem_append_right _ hmemI)
    have happ : passApply rows s (mkTodo n (excelRowToTodo r)) =
        mkTodo n (excelRowToTodo r) := by
      rw [passApply, elemUpd_noop, elemDel_not_mem]
      · show n ∉ passDelIds rows s
        intro hc
        have := passDelIds_lt_nextId rows s hwf.2.1 n hc
        omega
      · intro d hdu
        show d.taskId ≠ (excelRowToTodo r).taskId
        rw [htid]
        exact passUpds_not_new_tid rows s tid hm d hdu
    refine ⟨mkTodo n (excelRowToTodo r), ?_, hasChanges_mkTodo n _⟩
    have hmemAct : mkTodo n (excelRowToTodo r) ∈ activeTodos s1.todos := by
      rw [activeTodos, List.mem_filter]
      exact ⟨by rw [← happ]; exact hmem1, by rfl⟩
    have := mapGet_unique (activeTodos s1.todos) (mkTodo n (excelRowToTodo r))
      hE1nodup hmemAct
    have htid2 : (mkTodo n (excelRowToTodo r)).taskId = tid := htid
    rw [htid2] at this
    exact this

/-- After a completed pass, every non-deleted stored row carries a taskId
present in the snapshot. -/
theorem s1_active_tid_seen (now : Nat) (rows : List ExcelTableRow)
    (s s1 : SyncState) (rep : PassReport)
    (hpass : processPass now rows s = some (s1, rep))
    (t1 : Todo) (ht1 : t1 ∈ activeTodos s1.todos) :
    ((passSeen rows).contains t1.taskId) = true := by
  obtain ⟨hok, htodos, _, _, _⟩ :=
    processPass_some_spec now rows s s1 rep hpass
  rw [activeTodos, List.mem_filter] at ht1
  obtain ⟨hmem, hdel⟩ := ht1
  rw [htodos] at hmem
  obtain ⟨u, hu, hut⟩ := List.mem_map.mp hmem
  rcases List.mem_append.mp hu with hus | huI
  · -- a surviving stored row: had it not been in the snapshot, the pass
    -- would have soft-deleted it
    have hdel2 : (passApply rows s u).deleted = false := by
      rw [hut]
      simpa using hdel
    rw [passApply, elemDel_deleted, elemUpd_deleted, elemUpd_id] at hdel2
    rw [Bool.or_eq_false_iff] at hdel2
    obtain ⟨hudel, hucon⟩ := hdel2
    have hutid : t1.taskId = u.taskId := by
      rw [← hut, passApply_taskId]
    rw [hutid]
    by_contra hcon
    have hcon2 : ((passSeen rows).contains u.taskId) = false := by
      cases hc : (passSeen rows).contains u.taskId with
      | true => exact absurd hc hcon
      | false => rfl
    have : u.id ∈ passDelIds rows s := by
      rw [mem_passDelIds]
      refine ⟨u, ?_, rfl, hcon2⟩
      rw [passExisting, activeTodos, List.mem_filter]
      exact ⟨hus, by simpa using hudel⟩
    have hthis : (passDelIds rows s).contains u.id = true := by
      simpa using this
    rw [hthis] at hucon
    cases hucon
  · -- an inserted row: its taskId came from a snapshot row
    obtain ⟨d, hd, n, hn, hueq⟩ :=
      mkInserted_mem_elim (passNews rows s) u s.nextId huI
    obtain ⟨r, hr, hsn⟩ := List.mem_filterMap.mp hd
    obtain ⟨hrt, _, _⟩ := stageNew_rowTid (passExisting s) r d hsn
    have : d.taskId ∈ passSeen rows := mem_passSeen rows r d.taskId hr hrt
    have hutid : t1.taskId = d.taskId := by
      rw [← hut, passApply_taskId, hueq]
      rfl
    rw [hutid]
    simpa using this

/-- A pass that stages nothing completes and reports zero mutations and
no queued notifications. -/
theorem processPass_empty_stage (now : Nat) (rows : List ExcelTableRow)
    (s : SyncState)
    (hnews : passNews rows s = [])
    (hupds : passUpds rows s = [])
    (hdels : (passExisting s).filter
      (fun t => !((passSeen rows).contains t.taskId)) = [])
    (htrans : passTrans now rows s = []) :
    ∃ s2, processPass now rows s = some (s2, ⟨0, 0, 0, []⟩) := by
  have hnews2 : rows.filterMap (stageNew (activeTodos s.todos)) = [] := hnews
  have hupds2 : rows.filterMap (stageUpd (activeTodos s.todos)) = [] := hupds
  have hdels2 : (activeTodos s.todos).filter
      (fun t => !((rows.filterMap rowTid).contains t.taskId)) = [] := hdels
  have htrans2 : (rows.map
      (rowTransitionNotifs now (activeTodos s.todos))).flatten = [] := htrans
  simp only [processPass]
  rw [hnews2, hupds2, hdels2, htrans2]
  rw [if_pos ⟨by simp, by simp⟩]
  exact ⟨_, rfl⟩

/-- C1 (amended): provided the canonical store satisfies its own database
key invariants and the snapshot carries pairwise-distinct (nonempty)
taskIds, re-running `processWebhookNotification` immediately after a
completed pass with the external rows unchanged stages zero inserts, zero
updates and zero soft-deletes, and enqueues no outbound notifications. -/
theorem c1_reconciliation_idempotent (now1 now2 : Nat)
    (rows : List ExcelTableRow) (s s1 : SyncState) (rep1 : PassReport)
    (hwf : WellFormed s) (hdist : TidsDistinct rows)
    (h1 : processPass now1 rows s = some (s1, rep1)) :
    ∃ s2, processPass now2 rows s1 = some (s2, ⟨0, 0, 0, []⟩) := by
  have hrow : ∀ r ∈ rows, ∀ tid, rowTid r = some tid →
      ∃ e1, mapGet (activeTodos s1.todos) tid = some e1 ∧
        hasChanges e1 (excelRowToTodo r) = false :=
    fun r hr tid ht =>
      pass2_row_resolved now1 rows s s1 rep1 hwf hdist h1 r hr tid ht
  apply processPass_empty_stage
  · rw [passNews, List.filterMap_eq_nil_iff]
    intro r hr
    by_cases h0 : (excelRowToTodo r).taskId = ""
    · simp [stageNew, h0]
    · have ht : rowTid r = some (excelRowToTodo r).taskId := by
        rw [rowTid]
        simp [h0]
      obtain ⟨e1, hm, _⟩ := hrow r hr _ ht
      have hm2 : mapGet (passExisting s1) (excelRowToTodo r).taskId =
          some e1 := hm
      simp [stageNew, h0, hm2]
  · rw [passUpds, List.filterMap_eq_nil_iff]
    intro r hr
    by_cases h0 : (excelRowToTodo r).taskId = ""
    · simp [stageUpd, h0]
    · have ht : rowTid r = some (excelRowToTodo r).taskId := by
        rw [rowTid]
        simp [h0]
      obtain ⟨e1, hm, hc⟩ := hrow r hr _ ht
      have hm2 : mapGet (passExisting s1) (excelRowToTodo r).taskId =
          some e1 := hm
      simp [stageUpd, h0, hm2, hc]
  · rw [List.filter_eq_nil_iff]
    intro t1 ht1
    have := s1_active_tid_seen now1 rows s s1 rep1 h1 t1 ht1
    simpa using this
  · rw [passTrans]
    rw [List.flatten_eq_nil_iff]
    intro l hl
    obtain ⟨r, hr, hlr⟩ := List.mem_map.mp hl
    rw [← hlr]
    by_cases h0 : (excelRowToTodo r).taskId = ""
    · simp [rowTransitionNotifs, h0]
    · have ht : rowTid r = some (excelRowToTodo r).taskId := by
        rw [rowTid]
        simp [h0]
      obtain ⟨e1, hm, hc⟩ := hrow r hr _ ht
      have hm2 : mapGet (passExisting s1) (excelRowToTodo r).taskId =
          some e1 := hm
      simp [rowTransitionNotifs, h0, hm2, hc]

/-- An external row with taskId T1, fixed pallet fields, a given status
and assignee and notes. -/
def c1row (status assigned notes : String) : ExcelTableRow :=
  { id := "r1", index := 0,
    values := [["T1", "J", "R", "P", "S", "E", status, assigned, "", "Acc",
      "", notes]] }

/-- A canonical store holding the todo written by the row with notes
`a`. -/
def c1state : SyncState :=
  { todos := [mkTodo 0 (excelRowToTodo (c1row "new" "alice" "a"))],
    queue := [], nextId := 1 }

/-- A snapshot carrying the same taskId T1 twice with different notes. -/
def c1rows : List ExcelTableRow :=
  [c1row "new" "alice" "b", c1row "new" "alice" "a"]

/-- Counterexample to C1 as stated: with a snapshot carrying the same
taskId twice with differing fields, the first pass completes, yet the
second pass over the unchanged snapshot stages one further update (both
rows are compared against the stale pre-pass map, so the pass flips the
stored row between the two variants on every run). -/
theorem c1_counterexample :
    ((processPass 0 c1rows c1state).bind (fun p =>
      (processPass 0 c1rows p.1).map (fun q => q.2.updated))) = some 1 := by
  rfl

/-- A single-row snapshot with no assignee, for the C1 witness. -/
def c1wRow : ExcelTableRow :=
  { id := "r1", index := 0,
    values := [["T1", "J", "R", "P", "S", "E", "new", "", "", "", "", ""]] }

/-- Witness for C1 at a concrete store and snapshot: inserting T1 into an
empty store and re-running the pass stages nothing. -/
theorem c1_reconciliation_idempotent_witness :
    ∃ s2, processPass 1 [c1wRow]
      { todos := [mkTodo 0 (excelRowToTodo c1wRow)], queue := [],
        nextId := 1 } = some (s2, ⟨0, 0, 0, []⟩) :=
  c1_reconciliation_idempotent 0 1 [c1wRow]
    { todos := [], queue := [], nextId := 0 }
    { todos := [mkTodo 0 (excelRowToTodo c1wRow)], queue := [], nextId := 1 }
    ⟨1, 0, 0, []⟩ (by unfold WellFormed; decide)
    (by unfold TidsDistinct; decide) (by rfl)

/-- The scenario row of C7: taskId T1, status new, assigned to alice. -/
def c7row : ExcelTableRow :=
  { id := "r1", index := 0,
    values := [["T1", "J", "R", "P", "S", "E", "new", "alice", "", "", "",
      ""]] }

/-- C7 (amended): during a reconciliation pass, (first conjunct) every
detected status transition into in-progress or done stages a QueueItem —
regardless of assignment — addressed to the row's assignee when present
and to `admin` otherwise, and referencing the stored todo; and (second
conjunct) inserting the external row {taskId T1, status new, assignedTo
alice} into any store not containing T1 stages exactly one QueueItem,
addressed to alice. -/
theorem c7_transition_and_insert_notifs :
    (∀ (now : Nat) (rows : List ExcelTableRow) (s s1 : SyncState)
        (rep : PassReport), processPass now rows s = some (s1, rep) →
      ∀ r ∈ rows, ∀ e,
        (excelRowToTodo r).taskId ≠ "" →
        mapGet (activeTodos s.todos) (excelRowToTodo r).taskId = some e →
        hasChanges e (excelRowToTodo r) = true →
        e.status ≠ (excelRowToTodo r).status →
        ((excelRowToTodo r).status = "in_progress" ∨
          (excelRowToTodo r).status = "done") →
        ∃ q ∈ rep.queued,
          q.recipient = (excelRowToTodo r).assignedTo.getD "admin" ∧
          q.todoId = some e.id ∧ q.type = "in_app") ∧
    (∀ (now : Nat) (s : SyncState),
      (∀ t ∈ s.todos, t.taskId ≠ "T1") →
      ∃ s1 dels, processPass now [c7row] s = some
        (s1, ⟨1, 0, dels,
          [mkQueueItem now "alice" "New Task Assigned"
            "You have been assigned task: J-R-P" (some s.nextId)]⟩)) := by
  constructor
  · intro now rows s s1 rep hpass r hr e h0 hm hc hst htrans
    obtain ⟨_, _, _, _, hrep⟩ :=
      processPass_some_spec now rows s s1 rep hpass
    have hm2 : mapGet (passExisting s) (excelRowToTodo r).taskId = some e := hm
    rcases htrans with hip | hdo
    · refine ⟨mkQueueItem now ((excelRowToTodo r).assignedTo.getD "admin")
        "Task Started" ("Task " ++ (excelRowToTodo r).jobNumber ++ "-" ++
          (excelRowToTodo r).releaseNumber ++ "-" ++
          (excelRowToTodo r).palletNumber ++ " is now in progress")
        (some e.id), ?_, rfl, rfl, rfl⟩
      rw [hrep]
      apply List.mem_append_left
      rw [passTrans]
      apply List.mem_flatten.mpr
      refine ⟨rowTransitionNotifs now (passExisting s) r,
        List.mem_map_of_mem _ hr, ?_⟩
      rw [rowTransitionNotifs]
      simp only [h0, if_false, hm2, hc, if_true]
      apply List.mem_append_left
      rw [if_pos ⟨hst, hip⟩]
      exact List.mem_singleton.mpr rfl
    · refine ⟨mkQueueItem now ((excelRowToTodo r).assignedTo.getD "admin")
        "Task Completed" ("Task " ++ (excelRowToTodo r).jobNumber ++ "-" ++
          (excelRowToTodo r).releaseNumber ++ "-" ++
          (excelRowToTodo r).palletNumber ++ " is completed")
        (some e.id), ?_, rfl, rfl, rfl⟩
      rw [hrep]
      apply List.mem_append_left
      rw [passTrans]
      apply List.mem_flatten.mpr
      refine ⟨rowTransitionNotifs now (passExisting s) r,
        List.mem_map_of_mem _ hr, ?_⟩
      rw [rowTransitionNotifs]
      simp only [h0, if_false, hm2, hc, if_true]
      apply List.mem_append_right
      rw [if_pos ⟨hst, hdo⟩]
      exact List.mem_singleton.mpr rfl
  · intro now s hT1
    have hmg : mapGet (activeTodos s.todos)
        (excelRowToTodo c7row).taskId = none := by
      rw [mapGet_eq_none_iff]
      intro t ht
      exact hT1 t (List.mem_of_mem_filter ht)
    have hsn : stageNew (activeTodos s.todos) c7row =
        some (excelRowToTodo c7row) := by
      rw [stageNew]
      simp only [hmg]
      rfl
    have hsu : stageUpd (activeTodos s.todos) c7row = none := by
      rw [stageUpd]
      simp only [hmg]
      rfl
    have htr : rowTransitionNotifs now (activeTodos s.todos) c7row = [] := by
      rw [rowTransitionNotifs]
      simp only [hmg]
      rfl
    simp only [processPass, List.filterMap_cons, List.filterMap_nil, hsn,
      hsu, List.map_cons, List.map_nil, htr]
    have hcond : ([(excelRowToTodo c7row).taskId].Nodup ∧
        ∀ d ∈ [excelRowToTodo c7row], ∀ t ∈ s.todos,
          t.taskId ≠ d.taskId) := by
      constructor
      · exact List.nodup_singleton _
      · intro d hd t ht
        rw [List.mem_singleton] at hd
        subst hd
        exact hT1 t ht
    rw [if_pos hcond]
    exact ⟨_, _, rfl⟩

/-- Counterexample to C7 as stated: a detected transition of an
*unassigned* task into in-progress still stages a QueueItem — addressed
to `admin` — although the claim says an item is staged only when the task
is assigned. -/
theorem c7_counterexample :
    (processPass 0 [c1row "in_progress" "" ""]
        { todos := [mkTodo 0 (excelRowToTodo (c1row "new" "" ""))],
          queue := [], nextId := 1 }).map
      (fun p => p.2.queued.map (fun q => (q.recipient, q.subject))) =
      some [("admin", "Task Started")] ∧
    (excelRowToTodo (c1row "in_progress" "" "")).assignedTo = none := by
  exact ⟨rfl, rfl⟩

/-- Witness for C7 at the concrete scenario: inserting the row into an
empty store stages exactly one QueueItem, addressed to alice. -/
theorem c7_transition_and_insert_notifs_witness :
    ∃ s1 dels, processPass 5 [c7row]
        { todos := [], queue := [], nextId := 0 } =
      some (s1, ⟨1, 0, dels,
        [mkQueueItem 5 "alice" "New Task Assigned"
          "You have been assigned task: J-R-P" (some 0)]⟩) :=
  c7_transition_and_insert_notifs.2 5
    { todos := [], queue := [], nextId := 0 } (by decide)
